import Mathlib

/-!
# Verification of the `di` dependency-injection container (v2)

A shallow embedding of the Go sources: `service.go` (descriptor model and
`build`), `container.go` (registry, name/type resolution, disposal) and
`scope.go` (request-scoped overlay).  The embedding passes the mutable
state (`World`) explicitly; recursion through the dependency graph is
bounded by fuel, with `diverge` standing for non-termination (including
the mutex self-deadlock the source documents).  Constructor invocations
and disposer invocations are recorded in an event log so that the
"built at most once" style properties can be stated as counting facts.
-/

namespace DI

/-- `reflect.Type` as used by the source: a (possibly pointer to a) defined
type.  `pkg`/`nm` identify the defined type (the pointee when `isPtr`);
`implErr` models `t.Implements(error)` used by `isTypeError`. -/
structure GoType where
  isPtr : Bool
  pkg : String
  nm : String
  implErr : Bool
deriving DecidableEq, Repr

/-- `reflect.Type.String()`: package-qualified, with a `*` for pointers. -/
def GoType.str (t : GoType) : String :=
  (if t.isPtr then "*" else "") ++ t.pkg ++ "." ++ t.nm

/-- `reflect.Type.Name()`: the bare name for a defined type, and the empty
string for a non-defined type such as a pointer type. -/
def GoType.name (t : GoType) : String :=
  if t.isPtr then "" else t.nm

/-- A Go `interface{}` value: `nil`, the `context.Background()` value, or a
non-nil instance identified by its allocation id (reference identity). -/
inductive Value where
  | nil
  | background
  | obj (id : Nat)
deriving DecidableEq, Repr

/-- Go `error` values produced by the library, kept structurally so that the
rendered message (`GoErr.message`) matches the source's `fmt.Errorf` calls. -/
inductive GoErr where
  | userErr (msg : String)
  | resolveFail (tyName : String)
  | buildFail (svcName : String) (cause : GoErr)
  | notFound (svcName : String)
  | notAFunc (tyName : String)
  | shouldReturnValue (tyName : String)
  | shouldReturnNonError (tyName : String)
  | shouldReturnPair (tyName : String)
  | tooManyReturns (tyName : String)
deriving DecidableEq, Repr

/-- The message of each error, following the `fmt.Errorf` format strings of
`container.go` and `service.go` verbatim. -/
def GoErr.message : GoErr → String
  | .userErr m => m
  | .resolveFail tn => "container: failed to resolve " ++ tn
  | .buildFail nm cause => "container: failed to build " ++ nm ++ ", " ++ cause.message
  | .notFound nm => "container: could not find service, " ++ nm
  | .notAFunc tn => "service: " ++ tn ++ " is not a func"
  | .shouldReturnValue tn => "service: " ++ tn ++ " should return a value"
  | .shouldReturnNonError tn => "service: " ++ tn ++ " should return a non-error value"
  | .shouldReturnPair tn => "service: " ++ tn ++ " should return (interface\x7b\x7d, error)"
  | .tooManyReturns tn => "service: " ++ tn ++ " can not contain more than 2 return values"

/-- Observable side effects: invocation of a service's constructor, and
invocation of a service's `DisposeFunc` (with the context value and the
instance the callback receives). Services are identified by their index in
the container's descriptor slice. -/
inductive Event where
  | ctorCall (i : Nat)
  | disposeCall (i : Nat) (ctxv inst : Value)
deriving DecidableEq, Repr

/-- Dynamic behaviour of a constructor function: its parameter types, return
types, and a body receiving the resolved arguments plus a fresh allocation
seed, producing the first return value and (what would be) the second. -/
structure Ctor where
  ins : List GoType
  outs : List GoType
  body : List Value → Nat → Value × Option GoErr

/-- The argument handed to `NewService`: either a non-function value (of the
given type) or a function with the given signature and behaviour. -/
inductive CtorArg where
  | notFunc (t : GoType)
  | func (c : Ctor)

/-- Lifetimes, as in `service.go`. -/
inductive ServiceLifetime where
  | singleton
  | transient
  | scoped
deriving DecidableEq, Repr

/-- The `Service` descriptor.  `impl` is the cached instance (`Value.nil`
when empty, matching the nil `interface{}` zero value), `dipsose` (the
source's field name) records whether a `DisposeFunc` has been set, and
`mu` is the per-descriptor `sync.Mutex`, true while a build holds it. -/
structure Service where
  name : String
  typ : GoType
  lifetime : ServiceLifetime
  ctor : Ctor
  impl : Value
  dipsose : Bool
  mu : Bool

/-- The mutable state: the container's descriptor slice, a fresh allocation
counter for constructor bodies, and the event log. -/
structure World where
  services : List Service
  fresh : Nat
  log : List Event

/-- Result of an internal operation that returns `(interface{}, error)`:
either a value, a recoverable error, or non-termination / deadlock. -/
inductive Res (α : Type) where
  | ok (a : α)
  | err (e : GoErr)
  | diverge
deriving DecidableEq

/-- Result of a public entry point: either a value, a panic carrying the
given error, or non-termination / deadlock. -/
inductive POut (α : Type) where
  | ok (a : α)
  | fatal (e : GoErr)
  | diverge
deriving DecidableEq

/-- True exactly on the panicking outcome. -/
def POut.isFatal : POut α → Bool
  | .fatal _ => true
  | _ => false

/-- A resolver callback, as passed to `Service.build`: maps a required
parameter type to an instance, threading the world. -/
abbrev Resolver := GoType → World → Res Value × World

/-- Number of `ctorCall i` events in a log: how often service `i`'s
constructor has been invoked. -/
def countCtor (i : Nat) : List Event → Nat
  | [] => 0
  | Event.ctorCall j :: rest => (if j = i then 1 else 0) + countCtor i rest
  | _ :: rest => countCtor i rest

/-- Number of `disposeCall i _ _` events in a log: how often service `i`'s
disposer has been invoked. -/
def countDispose (i : Nat) : List Event → Nat
  | [] => 0
  | Event.disposeCall j _ _ :: rest => (if j = i then 1 else 0) + countDispose i rest
  | _ :: rest => countDispose i rest

/-- Replace the service at index `i`. -/
def setSvc (w : World) (i : Nat) (s : Service) : World :=
  { w with services := w.services.set i s }

/-- Acquire service `i`'s build mutex. -/
def lockAt (i : Nat) (w : World) : World :=
  match w.services[i]? with
  | some s => setSvc w i { s with mu := true }
  | none => w

/-- Release service `i`'s build mutex. -/
def unlockAt (i : Nat) (w : World) : World :=
  match w.services[i]? with
  | some s => setSvc w i { s with mu := false }
  | none => w

/-- First descriptor index whose `name` matches (the `for` loops of
`Container.GetService` / `getServiceInfo`). -/
def findIdxName (l : List Service) (n : String) : Option Nat :=
  l.findIdx? (fun s => decide (s.name = n))

/-- First descriptor index whose produced type matches (the `for` loop of
`Container.getService`). -/
def findIdxTy (l : List Service) (t : GoType) : Option Nat :=
  l.findIdx? (fun s => decide (s.typ = t))

/-- The `s.Name()` read by the error-wrapping paths. -/
def svcNameAt (w : World) (i : Nat) : String :=
  match w.services[i]? with
  | some s => s.name
  | none => ""

/-- Positional, in-order resolution of the constructor's parameter list
(the `for i := 0; i < numIn; i++` loop of `Service.build`): the first
failing resolution aborts the loop and is propagated. -/
def resolveArgs (sp : Resolver) : List GoType → World → Res (List Value) × World
  | [], w => (.ok [], w)
  | t :: ts, w =>
    match sp t w with
    | (.ok v, w1) =>
      match resolveArgs sp ts w1 with
      | (.ok vs, w2) => (.ok (v :: vs), w2)
      | (.err e, w2) => (.err e, w2)
      | (.diverge, w2) => (.diverge, w2)
    | (.err e, w1) => (.err e, w1)
    | (.diverge, w1) => (.diverge, w1)

/-- Tail of `Service.build` after the constructor call succeeded: store the
instance when the lifetime is Singleton, release the mutex, return it. -/
def finishBuild (i : Nat) (v : Value) (w : World) : Res Value × World :=
  match w.services[i]? with
  | none => (.diverge, w)
  | some s =>
    if s.lifetime = ServiceLifetime.singleton then
      (.ok v, setSvc w i { s with impl := v, mu := false })
    else
      (.ok v, setSvc w i { s with mu := false })

/-- Record the invocation of service `i`'s constructor: consume a fresh
allocation id and log the `ctorCall`. -/
def logCtor (i : Nat) (w : World) : World :=
  { w with fresh := w.fresh + 1, log := w.log ++ [Event.ctorCall i] }

/-- The part of `Service.build` after all arguments were resolved: invoke
the constructor (`out := f.Call(args)`), and when it declares two return
values fail on a non-nil second value; otherwise hand the first return
value to `finishBuild`. -/
def buildCore (i : Nat) (s : Service) (args : List Value) (w1 : World) : Res Value × World :=
  if s.ctor.outs.length = 2 then
    match (s.ctor.body args w1.fresh).2 with
    | some e => (.err e, unlockAt i (logCtor i w1))
    | none => finishBuild i (s.ctor.body args w1.fresh).1 (logCtor i w1)
  else finishBuild i (s.ctor.body args w1.fresh).1 (logCtor i w1)

/-- `Service.build` from `service.go`: under the descriptor's own mutex
(whose re-entrant acquisition deadlocks, modelled by `diverge`), return the
cached instance for an already-built Singleton; otherwise resolve every
parameter through `sp`, invoke the constructor (logged as `ctorCall i`),
check the error return when the constructor declares two return values,
and cache the instance when the lifetime is Singleton. -/
def Service.build (i : Nat) (sp : Resolver) (w : World) : Res Value × World :=
  match w.services[i]? with
  | none => (.diverge, w)
  | some s =>
    if s.mu then (.diverge, w)
    else if s.impl ≠ Value.nil ∧ s.lifetime = ServiceLifetime.singleton then
      (.ok s.impl, w)
    else
      match resolveArgs sp s.ctor.ins (lockAt i w) with
      | (.ok args, w1) => buildCore i s args w1
      | (.err e, w1) => (.err e, unlockAt i w1)
      | (.diverge, w1) => (.diverge, w1)

/-- `Container.getService(reflect.Type)`: the internal, error-returning
resolver used for constructor arguments.  Scans for the first descriptor
producing the requested type, builds it (recursively using this same
resolver, bounded by fuel), wrapping build failures with the service name. -/
def Container.getService : Nat → GoType → World → Res Value × World
  | 0, _, w => (.diverge, w)
  | Nat.succ fuel, t, w =>
    match findIdxTy w.services t with
    | none => (.err (GoErr.resolveFail t.name), w)
    | some i =>
      match Service.build i (Container.getService fuel) w with
      | (.ok v, w1) => (.ok v, w1)
      | (.err e, w1) => (.err (GoErr.buildFail (svcNameAt w i) e), w1)
      | (.diverge, w1) => (.diverge, w1)

/-- `Container.GetService(name)`: public name-based lookup; panics (`fatal`)
when the service is missing or its build fails. -/
def Container.GetService (fuel : Nat) (nm : String) (w : World) : POut Value × World :=
  match findIdxName w.services nm with
  | none => (.fatal (GoErr.notFound nm), w)
  | some i =>
    match Service.build i (Container.getService fuel) w with
    | (.ok v, w1) => (.ok v, w1)
    | (.err e, w1) => (.fatal (GoErr.buildFail (svcNameAt w i) e), w1)
    | (.diverge, w1) => (.diverge, w1)

/-- The iteration of `Container.GetServices` starting at index `i` with `n`
slots left to visit: collect a built instance for every descriptor whose
type matches, panicking on the first build failure. -/
def Container.getServicesLoop (fuel : Nat) (t : GoType) :
    Nat → Nat → World → POut (List Value) × World
  | _, 0, w => (.ok [], w)
  | i, Nat.succ n, w =>
    match w.services[i]? with
    | none => (.ok [], w)
    | some s =>
      if s.typ = t then
        match Service.build i (Container.getService fuel) w with
        | (.ok v, w1) =>
          match Container.getServicesLoop fuel t (i + 1) n w1 with
          | (.ok vs, w2) => (.ok (v :: vs), w2)
          | r => r
        | (.err e, w1) => (.fatal (GoErr.buildFail s.name e), w1)
        | (.diverge, w1) => (.diverge, w1)
      else
        Container.getServicesLoop fuel t (i + 1) n w

/-- `Container.GetServices(reflect.Type)`: every matching descriptor, built
independently, in registration order. -/
def Container.GetServices (fuel : Nat) (t : GoType) (w : World) : POut (List Value) × World :=
  Container.getServicesLoop fuel t 0 w.services.length w

/-- `NewService`'s construction of the descriptor once the signature was
validated: the name defaults to the return type's `String()`, or the
pointee's `String()` for a pointer return type. -/
def mkFromSig (st : GoType) (c : Ctor) : Service :=
  { name := if st.isPtr then st.pkg ++ "." ++ st.nm else st.str
    typ := st
    lifetime := ServiceLifetime.transient
    ctor := c
    impl := Value.nil
    dipsose := false
    mu := false }

/-- `NewService` from `service.go`: panics unless the argument is a function
returning one non-error value, or one non-error value plus an error. -/
def NewService (ctorArg : CtorArg) : POut Service :=
  match ctorArg with
  | .notFunc t => .fatal (GoErr.notAFunc t.name)
  | .func c =>
    match c.outs with
    | [] => .fatal (GoErr.shouldReturnValue "")
    | [st] =>
      if st.implErr then .fatal (GoErr.shouldReturnNonError "")
      else .ok (mkFromSig st c)
    | [st, o2] =>
      if st.implErr then .fatal (GoErr.shouldReturnPair "")
      else if o2.implErr = false then .fatal (GoErr.shouldReturnPair "")
      else .ok (mkFromSig st c)
    | _ => .fatal (GoErr.tooManyReturns "")

/-- `Container.AddService`: validate via `NewService` and append; on a
validation panic the descriptor list is untouched.  Returns the new
descriptor's index (the `*Service` the source hands back). -/
def Container.AddService (ctorArg : CtorArg) (w : World) : POut Nat × World :=
  match NewService ctorArg with
  | .ok s => (.ok w.services.length, { w with services := w.services ++ [s] })
  | .fatal e => (.fatal e, w)
  | .diverge => (.diverge, w)

/-- `Service.SetName`: a no-op on the empty string. -/
def Service.SetName (nm : String) (s : Service) : Service :=
  if nm = "" then s else { s with name := nm }

/-- `Service.SetDispose`: record that a disposer callback is configured. -/
def Service.SetDispose (s : Service) : Service := { s with dipsose := true }

/-- `Service.AsSingleton`. -/
def Service.AsSingleton (s : Service) : Service := { s with lifetime := .singleton }

/-- `Service.AsTransient`. -/
def Service.AsTransient (s : Service) : Service := { s with lifetime := .transient }

/-- `Service.AsScoped`. -/
def Service.AsScoped (s : Service) : Service := { s with lifetime := .scoped }

/-- `Service.Dispose` (for the descriptor at index `i`): invoke the disposer
if one is set, passing the context value and the currently cached instance
(logged as a `disposeCall`), then clear the cached instance. -/
def Service.Dispose (i : Nat) (ctxv : Value) (w : World) : World :=
  match w.services[i]? with
  | none => w
  | some s =>
    let w1 := if s.dipsose then { w with log := w.log ++ [Event.disposeCall i ctxv s.impl] } else w
    setSvc w1 i { s with impl := Value.nil }

/-- `Container.Clean`: dispose every descriptor in registration order. -/
def Container.Clean (ctxv : Value) (w : World) : World :=
  (List.range w.services.length).foldl (fun acc i => Service.Dispose i ctxv acc) w

/-- A `Scope`: the bound ambient context value and the private cache mapping
a produced type to the already-built scoped instance. -/
structure Scope where
  ctx : Value
  services : List (GoType × Value)
deriving Repr

/-- Lookup in the scope's type-keyed cache. -/
def scopeLookup : List (GoType × Value) → GoType → Option Value
  | [], _ => none
  | (k, v) :: rest, t => if k = t then some v else scopeLookup rest t

/-- Map update (`s.services[typ] = impl`). -/
def scopeInsert : List (GoType × Value) → GoType → Value → List (GoType × Value)
  | [], t, v => [(t, v)]
  | (k, x) :: rest, t, v =>
    if k = t then (t, v) :: rest else (k, x) :: scopeInsert rest t v

/-- `newScope`: empty cache, the given context bound. -/
def newScope (ctxv : Value) : Scope := { ctx := ctxv, services := [] }

/-- `Container.CreateScopeWithContext`. -/
def Container.CreateScopeWithContext (ctxv : Value) : Scope := newScope ctxv

/-- `Container.CreateScope`: binds `context.Background()`. -/
def Container.CreateScope : Scope :=
  Container.CreateScopeWithContext Value.background

/-- `Scope.getService`, the scope-aware resolver: supply the bound context
for the `context.Context` type, then the scope's cache, then fall through
to the container's type-based resolver.  Note it never writes the cache. -/
def Scope.getService (fuel : Nat) (sc : Scope) : Resolver := fun t w =>
  if t.str = "context.Context" then (.ok sc.ctx, w)
  else
    match scopeLookup sc.services t with
    | some v => (.ok v, w)
    | none => Container.getService fuel t w

/-- `Scope.GetService`: look the descriptor up by name (panicking when it is
absent); delegate non-Scoped lifetimes to the container; for Scoped
descriptors consult the type-keyed cache, building and caching on a miss. -/
def Scope.GetService (fuel : Nat) (sc : Scope) (nm : String) (w : World) :
    POut Value × Scope × World :=
  match findIdxName w.services nm with
  | none => (.fatal (GoErr.notFound nm), sc, w)
  | some i =>
    match w.services[i]? with
    | none => (.diverge, sc, w)
    | some svc =>
      if svc.lifetime = ServiceLifetime.scoped then
        match scopeLookup sc.services svc.typ with
        | some impl => (.ok impl, sc, w)
        | none =>
          match Service.build i (Scope.getService fuel sc) w with
          | (.ok impl, w1) =>
            (.ok impl, { sc with services := scopeInsert sc.services svc.typ impl }, w1)
          | (.err e, w1) => (.fatal (GoErr.buildFail svc.name e), sc, w1)
          | (.diverge, w1) => (.diverge, sc, w1)
      else
        match Container.GetService fuel nm w with
        | (r, w1) => (r, sc, w1)

/-- The malformed constructor shapes rejected by `NewService`, as the spec
enumerates them: not callable, zero return values, a single error-typed
return value, a two-value return whose first value is error-typed or whose
second is not, or more than two return values. -/
def badCtorShape : CtorArg → Prop
  | .notFunc _ => True
  | .func c =>
    match c.outs with
    | [] => True
    | [o] => o.implErr = true
    | [o1, o2] => o1.implErr = true ∨ o2.implErr = false
    | _ => True

/-- Substring occurrence on character lists. -/
def listContains (needle : List Char) : List Char → Bool
  | [] => needle.isEmpty
  | c :: rest => needle.isPrefixOf (c :: rest) || listContains needle rest

/-- `strContains hay needle` is true when `needle` occurs in `hay`. -/
def strContains (hay needle : String) : Bool :=
  listContains needle.data hay.data

def c7ty : GoType := ⟨false, "context", "Context", false⟩

def c7svc : Service :=
  { name := "ctx", typ := c7ty, lifetime := .transient
    ctor := ⟨[], [c7ty], fun _ n => (Value.obj n, none)⟩
    impl := .nil, dipsose := false, mu := false }

def c7w : World := ⟨[c7svc], 0, []⟩

def c7sc : Scope := ⟨Value.obj 42, []⟩

def c6bad : CtorArg := .func ⟨[], [], fun _ _ => (Value.nil, none)⟩

def c6w : World := ⟨[], 0, []⟩

def c9svc : Service :=
  { name := "di.N", typ := ⟨false, "di", "N", false⟩, lifetime := .singleton
    ctor := ⟨[], [⟨false, "di", "N", false⟩], fun _ _ => (Value.nil, none)⟩
    impl := .nil, dipsose := false, mu := false }

def c9w : World := ⟨[c9svc], 0, []⟩

def c2svc : Service :=
  { name := "S", typ := ⟨false, "di", "S", false⟩, lifetime := .singleton
    ctor := ⟨[], [⟨false, "di", "S", false⟩], fun _ n => (Value.obj n, none)⟩
    impl := Value.obj 7, dipsose := true, mu := false }

def c2w : World := ⟨[c2svc], 1, []⟩

def c5t : GoType := ⟨true, "di", "testDependency2", false⟩

def c5svc : Service :=
  { name := "di.testService", typ := ⟨true, "di", "testService", false⟩
    lifetime := .transient
    ctor := ⟨[c5t], [⟨true, "di", "testService", false⟩], fun _ n => (Value.obj n, none)⟩
    impl := .nil, dipsose := false, mu := false }

def c5w : World := ⟨[c5svc], 0, []⟩

def c4sp : Resolver := fun t w =>
  if t = (⟨false, "di", "P", false⟩ : GoType) then (.ok (Value.obj 99), w)
  else (.err (GoErr.userErr "boom"), w)

def c4s1 : Service :=
  { name := "di.C", typ := ⟨false, "di", "C", false⟩, lifetime := .transient
    ctor := ⟨[⟨false, "di", "P", false⟩, ⟨false, "di", "Q", false⟩],
      [⟨false, "di", "C", false⟩], fun _ n => (Value.obj n, none)⟩
    impl := .nil, dipsose := false, mu := false }

def c4w1 : World := ⟨[c4s1], 0, []⟩

def c4s2 : Service :=
  { name := "di.D", typ := ⟨false, "di", "D", false⟩, lifetime := .singleton
    ctor := ⟨[], [⟨false, "di", "D", false⟩, ⟨false, "", "error", true⟩],
      fun _ _ => (Value.nil, some (GoErr.userErr "ctorfail"))⟩
    impl := .nil, dipsose := false, mu := false }

def c4w2 : World := ⟨[c4s2], 0, []⟩

/-- True exactly on the `buildFail` wrapping used by every public
entry point's panic on a failed build. -/
def GoErr.isBuildFail : GoErr → Bool
  | .buildFail _ _ => true
  | _ => false

def c8t : GoType := ⟨false, "di", "M", false⟩

def c8s1 : Service :=
  { name := "di.M", typ := ⟨false, "di", "M", false⟩, lifetime := .transient
    ctor := ⟨[], [⟨false, "di", "M", false⟩], fun _ n => (Value.obj n, none)⟩
    impl := .nil, dipsose := false, mu := false }

def c8s2 : Service :=
  { name := "di.Other", typ := ⟨false, "di", "Other", false⟩, lifetime := .transient
    ctor := ⟨[], [⟨false, "di", "Other", false⟩], fun _ n => (Value.obj n, none)⟩
    impl := .nil, dipsose := false, mu := false }

def c8s3 : Service :=
  { name := "di.M", typ := ⟨false, "di", "M", false⟩, lifetime := .transient
    ctor := ⟨[], [⟨false, "di", "M", false⟩], fun _ n => (Value.obj n, none)⟩
    impl := .nil, dipsose := false, mu := false }

def c8w : World := ⟨[c8s1, c8s2, c8s3], 0, []⟩

def c8sf : Service :=
  { name := "di.M", typ := ⟨false, "di", "M", false⟩, lifetime := .transient
    ctor := ⟨[], [⟨false, "di", "M", false⟩, ⟨false, "", "error", true⟩],
      fun _ _ => (Value.nil, some (GoErr.userErr "x"))⟩
    impl := .nil, dipsose := false, mu := false }

def c8fw : World := ⟨[c8sf], 0, []⟩

/-- True when the descriptor at index `i` produces type `t`. -/
def matchesAt (w : World) (t : GoType) (i : Nat) : Bool :=
  match w.services[i]? with
  | some s => decide (s.typ = t)
  | none => false

/-- The indices of all descriptors producing `t`, in registration order
(increasing index over the descriptor slice). -/
def matchingIdxs (w : World) (t : GoType) : List Nat :=
  (List.range w.services.length).filter (matchesAt w t)

/-- The spec-side description of a successful `getServices` run, to be
compared with the implementation: the instances `vs` arise by building the
descriptors `idxs` one after another, left to right, each by its own
`Service.build` (which applies that descriptor's own lifetime policy)
against the container resolver, threading the world through. -/
def BuildsSeq (fuel : Nat) : List Nat → World → List Value → World → Prop
  | [], w, [], w' => w' = w
  | i :: is, w, v :: vs, w' =>
    ∃ w1, Service.build i (Container.getService fuel) w = (.ok v, w1) ∧
      BuildsSeq fuel is w1 vs w'
  | _, _, _, _ => False

/-- The spec-side description of a failed `getServices` run: some prefix of
the matching descriptors (in registration order) built fine, then matching
descriptor `j`'s build failed with `cause`, and the panic carries exactly
`getService`'s wrapping of `cause` with that descriptor's name. -/
def FailsAfter (fuel : Nat) (t : GoType) (w : World) (e : GoErr) (w' : World) : Prop :=
  ∃ pre j rest vs0 wmid sj cause,
    matchingIdxs w t = pre ++ j :: rest ∧
    BuildsSeq fuel pre w vs0 wmid ∧
    w.services[j]? = some sj ∧
    Service.build j (Container.getService fuel) wmid = (.err cause, w') ∧
    e = GoErr.buildFail sj.name cause

def c3svc : Service :=
  { name := "di.A", typ := ⟨false, "di", "A", false⟩, lifetime := .singleton
    ctor := ⟨[], [⟨false, "di", "A", false⟩], fun _ n => (Value.obj n, none)⟩
    impl := .nil, dipsose := false, mu := false }

def c3w0 : World := ⟨[c3svc], 0, []⟩

def c3w1 : World := ⟨[{ c3svc with impl := Value.obj 0 }], 1, [Event.ctorCall 0]⟩

def c1ws : Service :=
  { name := "di.A", typ := ⟨false, "di", "A", false⟩, lifetime := .scoped
    ctor := ⟨[], [⟨false, "di", "A", false⟩], fun _ n => (Value.obj n, none)⟩
    impl := .nil, dipsose := false, mu := false }

def c1ww0 : World := ⟨[c1ws], 0, []⟩

def c1ww1 : World := ⟨[c1ws], 1, [Event.ctorCall 0]⟩

def c1sc1 : Scope := ⟨Value.background, [(⟨false, "di", "A", false⟩, Value.obj 0)]⟩

def c1svcA : Service :=
  { name := "A", typ := ⟨false, "di", "A", false⟩, lifetime := .scoped
    ctor := ⟨[], [⟨false, "di", "A", false⟩], fun _ n => (Value.obj n, none)⟩
    impl := .nil, dipsose := false, mu := false }

def c1svcB : Service :=
  { name := "B", typ := ⟨false, "di", "B", false⟩, lifetime := .scoped
    ctor := ⟨[⟨false, "di", "A", false⟩], [⟨false, "di", "B", false⟩],
      fun _ n => (Value.obj n, none)⟩
    impl := .nil, dipsose := false, mu := false }

def c1w0 : World := ⟨[c1svcA, c1svcB], 0, []⟩

/-- First resolution in the counterexample scenario: Scoped "B", whose
constructor depends on Scoped "A", through a fresh Scope. -/
def c1run1 : POut Value × Scope × World :=
  Scope.GetService 5 Container.CreateScope "B" c1w0

/-- Second resolution: "A" directly, through the same Scope. -/
def c1run2 : POut Value × Scope × World :=
  Scope.GetService 5 c1run1.2.1 "A" c1run1.2.2

def c10s1 : Service :=
  { name := "X", typ := ⟨false, "di", "A", false⟩, lifetime := .scoped
    ctor := ⟨[], [⟨false, "di", "A", false⟩], fun _ n => (Value.obj n, none)⟩
    impl := .nil, dipsose := false, mu := false }

def c10s2 : Service :=
  { name := "Y", typ := ⟨false, "di", "A", false⟩, lifetime := .scoped
    ctor := ⟨[], [⟨false, "di", "A", false⟩], fun _ n => (Value.obj (n + 100), none)⟩
    impl := .nil, dipsose := false, mu := false }

def c10w0 : World := ⟨[c10s1, c10s2], 0, []⟩

def c10w1 : World := ⟨[c10s1, c10s2], 1, [Event.ctorCall 0]⟩

def c10sc1 : Scope := ⟨Value.background, [(⟨false, "di", "A", false⟩, Value.obj 0)]⟩

def svcShape (s s' : Service) : Prop :=
  s.name = s'.name ∧ s.typ = s'.typ ∧ s.lifetime = s'.lifetime ∧ s.dipsose = s'.dipsose

def ShapeEq (l l' : List Service) : Prop := List.Forall₂ svcShape l l'

/-- `Gd w w'` : going from `w` to `w'`, every descriptor keeps its identity
fields, and any descriptor whose build mutex is held in `w` is untouched
and gains no constructor invocation. -/
def Gd (w w' : World) : Prop :=
  ShapeEq w.services w'.services ∧
  ∀ j s, w.services[j]? = some s → s.mu = true →
    w'.services[j]? = some s ∧ countCtor j w'.log = countCtor j w.log

/-- A well-formed resolver preserves `Gd` (both of the source's resolvers
do: they only build other descriptors, respecting every held mutex). -/
def GdResolver (sp : Resolver) : Prop := ∀ t w, Gd w (sp t w).2

/-! ## List helper lemmas -/

theorem set_of_get? {α : Type} : ∀ (l : List α) (i : Nat) (a : α), l[i]? = some a → l.set i a = l
  | [], i, a, h => by simp at h
  | x :: xs, 0, a, h => by
    simp only [List.getElem?_cons_zero, Option.some.injEq] at h
    simp [List.set, h]
  | x :: xs, Nat.succ n, a, h => by
    simp only [List.getElem?_cons_succ] at h
    simp [List.set, set_of_get? xs n a h]

theorem get?_lt {α : Type} {l : List α} {i : Nat} {a : α} (h : l[i]? = some a) :
    i < l.length := by
  rcases List.getElem?_eq_some_iff.1 h with ⟨hlt, _⟩
  exact hlt

/-! ## Shape preservation

Builds mutate only a descriptor's `impl` cache and its mutex flag; the
identity fields (`name`, `typ`, `lifetime`, `dipsose`) are immutable during
resolution.  `ShapeEq` captures this, and `Gd` ("guarded") additionally
records that a descriptor whose mutex is held is untouched entirely and its
constructor is not invoked — which is exactly what the per-descriptor
`sync.Mutex` enforces in the source (any attempt deadlocks instead). -/


theorem svcShape_refl (s : Service) : svcShape s s := ⟨rfl, rfl, rfl, rfl⟩

theorem svcShape_trans {a b c : Service} (h1 : svcShape a b) (h2 : svcShape b c) :
    svcShape a c :=
  ⟨h1.1.trans h2.1, h1.2.1.trans h2.2.1, h1.2.2.1.trans h2.2.2.1, h1.2.2.2.trans h2.2.2.2⟩


theorem shapeEq_refl (l : List Service) : ShapeEq l l :=
  List.forall₂_same.2 (fun x _ => svcShape_refl x)

theorem shapeEq_trans : ∀ {l1 l2 l3 : List Service},
    ShapeEq l1 l2 → ShapeEq l2 l3 → ShapeEq l1 l3
  | _, _, _, List.Forall₂.nil, List.Forall₂.nil => List.Forall₂.nil
  | _, _, _, List.Forall₂.cons h1 t1, List.Forall₂.cons h2 t2 =>
    List.Forall₂.cons (svcShape_trans h1 h2) (shapeEq_trans t1 t2)

theorem shapeEq_length {l l' : List Service} (h : ShapeEq l l') : l.length = l'.length :=
  List.Forall₂.length_eq h

theorem shapeEq_get? : ∀ {l l' : List Service}, ShapeEq l l' → ∀ {i : Nat} {s : Service},
    l[i]? = some s → ∃ s', l'[i]? = some s' ∧ svcShape s s'
  | _, _, List.Forall₂.nil, i, s, h => by simp at h
  | _, _, List.Forall₂.cons hh ht, 0, s, h => by
    simp only [List.getElem?_cons_zero, Option.some.injEq] at h
    exact ⟨_, by simp, h ▸ hh⟩
  | _, _, List.Forall₂.cons hh ht, Nat.succ n, s, h => by
    simp only [List.getElem?_cons_succ] at h
    obtain ⟨s', hs', hsh⟩ := shapeEq_get? ht h
    exact ⟨s', by simpa using hs', hsh⟩

theorem shapeEq_set : ∀ {l : List Service} {i : Nat} {s s' : Service},
    l[i]? = some s → svcShape s s' → ShapeEq l (l.set i s')
  | [], i, s, s', h, _ => by simp at h
  | x :: xs, 0, s, s', h, hsh => by
    simp only [List.getElem?_cons_zero, Option.some.injEq] at h
    exact List.Forall₂.cons (h ▸ hsh) (shapeEq_refl xs)
  | x :: xs, Nat.succ n, s, s', h, hsh => by
    simp only [List.getElem?_cons_succ] at h
    exact List.Forall₂.cons (svcShape_refl x) (shapeEq_set h hsh)

theorem findIdx?_congr {l l' : List Service} (h : ShapeEq l l')
    (p p' : Service → Bool) (hp : ∀ a b, svcShape a b → p a = p' b) :
    ∀ (k : Nat), l.findIdx? p k = l'.findIdx? p' k := by
  induction h with
  | nil => intro k; rfl
  | cons hh ht ih =>
    intro k
    simp only [List.findIdx?_cons, hp _ _ hh]
    split
    · rfl
    · exact ih (k + 1)

theorem findIdxName_congr {l l' : List Service} (h : ShapeEq l l') (n : String) :
    findIdxName l n = findIdxName l' n :=
  findIdx?_congr h _ _ (fun a b hsh => by simp [hsh.1]) 0

theorem findIdxTy_congr {l l' : List Service} (h : ShapeEq l l') (t : GoType) :
    findIdxTy l t = findIdxTy l' t :=
  findIdx?_congr h _ _ (fun a b hsh => by simp [hsh.2.1]) 0

theorem countP_typ_congr {l l' : List Service} (h : ShapeEq l l') (t : GoType) :
    l.countP (fun s => decide (s.typ = t)) = l'.countP (fun s => decide (s.typ = t)) := by
  induction h with
  | nil => rfl
  | cons hh ht ih => simp [List.countP_cons, ih, hh.2.1]

theorem countCtor_append (i : Nat) (l1 l2 : List Event) :
    countCtor i (l1 ++ l2) = countCtor i l1 + countCtor i l2 := by
  induction l1 with
  | nil => simp [countCtor]
  | cons e t ih => cases e <;> simp [countCtor, ih] <;> omega

theorem countCtor_single_ne {i j : Nat} (h : j ≠ i) :
    countCtor i [Event.ctorCall j] = 0 := by
  simp [countCtor, h]


theorem Gd_refl (w : World) : Gd w w :=
  ⟨shapeEq_refl _, fun _ _ h _ => ⟨h, rfl⟩⟩

theorem Gd_trans {w1 w2 w3 : World} (h1 : Gd w1 w2) (h2 : Gd w2 w3) : Gd w1 w3 := by
  refine ⟨shapeEq_trans h1.1 h2.1, fun j s hj hm => ?_⟩
  obtain ⟨ha, hca⟩ := h1.2 j s hj hm
  obtain ⟨hb, hcb⟩ := h2.2 j s ha hm
  exact ⟨hb, by rw [hcb, hca]⟩


theorem resolveArgs_Gd {sp : Resolver} (H : GdResolver sp) :
    ∀ (ins : List GoType) (w : World), Gd w (resolveArgs sp ins w).2 := by
  intro ins
  induction ins with
  | nil => intro w; exact Gd_refl w
  | cons t ts ih =>
    intro w
    have h1 := H t w
    simp only [resolveArgs]
    rcases hsp : sp t w with ⟨r1, w1⟩
    rw [hsp] at h1
    cases r1 with
    | ok v =>
      dsimp only
      have h2 := ih w1
      rcases hra : resolveArgs sp ts w1 with ⟨r2, w2⟩
      rw [hra] at h2
      cases r2 <;> exact Gd_trans h1 h2
    | err e => exact h1
    | diverge => exact h1

/-! ## Structure-update and state helper lemmas -/

theorem svc_mu_eta {s : Service} (h : s.mu = false) : ({ s with mu := false } : Service) = s := by
  rcases s with ⟨n, t, l, c, im, d, m⟩
  dsimp only at h
  subst h
  rfl

theorem svc_impl_mu_eta {s : Service} (h : s.mu = false) :
    ({ s with impl := s.impl, mu := false } : Service) = s := by
  rcases s with ⟨n, t, l, c, im, d, m⟩
  dsimp only at h
  subst h
  rfl

theorem setSvc_get_self {w : World} {i : Nat} (s' : Service) (hlt : i < w.services.length) :
    (setSvc w i s').services[i]? = some s' := by
  simp [setSvc, List.getElem?_set_self hlt]

theorem setSvc_get_ne {w : World} {i j : Nat} (s' : Service) (h : i ≠ j) :
    (setSvc w i s').services[j]? = w.services[j]? := by
  simp [setSvc, List.getElem?_set_ne h]

theorem lockAt_eq {w : World} {i : Nat} {s : Service} (hs : w.services[i]? = some s) :
    lockAt i w = setSvc w i { s with mu := true } := by
  simp [lockAt, hs]

theorem unlockAt_eq {w : World} {i : Nat} {s : Service} (hs : w.services[i]? = some s) :
    unlockAt i w = setSvc w i { s with mu := false } := by
  simp [unlockAt, hs]

theorem lockAt_get_self {w : World} {i : Nat} {s : Service} (hs : w.services[i]? = some s) :
    (lockAt i w).services[i]? = some { s with mu := true } := by
  rw [lockAt_eq hs]
  exact setSvc_get_self _ (get?_lt hs)

theorem lockAt_log {w : World} {i : Nat} : (lockAt i w).log = w.log := by
  unfold lockAt
  cases w.services[i]? <;> rfl

theorem lockAt_Gd {w : World} {i : Nat} {s : Service} (hs : w.services[i]? = some s)
    (hmu : s.mu = false) : Gd w (lockAt i w) := by
  rw [lockAt_eq hs]
  refine ⟨shapeEq_set hs ⟨rfl, rfl, rfl, rfl⟩, fun j sj hj hm => ?_⟩
  have hne : i ≠ j := by
    intro he
    subst he
    rw [hs] at hj
    cases hj
    rw [hm] at hmu
    cases hmu
  exact ⟨(setSvc_get_ne _ hne).trans hj, rfl⟩

theorem finishBuild_singleton {w : World} {i : Nat} {sOld : Service} (v : Value)
    (hw : w.services[i]? = some sOld) (hl : sOld.lifetime = ServiceLifetime.singleton) :
    finishBuild i v w = (.ok v, setSvc w i { sOld with impl := v, mu := false }) := by
  unfold finishBuild
  rw [hw]
  simp [hl]

theorem finishBuild_other {w : World} {i : Nat} {sOld : Service} (v : Value)
    (hw : w.services[i]? = some sOld) (hl : ¬ sOld.lifetime = ServiceLifetime.singleton) :
    finishBuild i v w = (.ok v, setSvc w i { sOld with mu := false }) := by
  unfold finishBuild
  rw [hw]
  simp [hl]

/-- Unfolding equation for the non-cached path of `Service.build`. -/
theorem build_main_eq {i : Nat} {sp : Resolver} {w : World} {s : Service}
    (hs : w.services[i]? = some s) (hmu : s.mu = false)
    (hnc : ¬ (s.impl ≠ Value.nil ∧ s.lifetime = ServiceLifetime.singleton)) :
    Service.build i sp w =
      match resolveArgs sp s.ctor.ins (lockAt i w) with
      | (.ok args, w1) => buildCore i s args w1
      | (.err e, w1) => (.err e, unlockAt i w1)
      | (.diverge, w1) => (.diverge, w1) := by
  unfold Service.build
  rw [hs]
  simp [hmu, hnc]

/-- An already-built Singleton is returned from the cache: no resolver call,
no constructor call, no state change — for an arbitrary resolver. -/
theorem build_cached {i : Nat} {w : World} {s : Service} (sp : Resolver)
    (hs : w.services[i]? = some s) (hmu : s.mu = false)
    (hi : s.impl ≠ Value.nil) (hl : s.lifetime = ServiceLifetime.singleton) :
    Service.build i sp w = (.ok s.impl, w) := by
  unfold Service.build
  rw [hs]
  simp [hmu, hi, hl]

/-- A build attempt on a descriptor whose mutex is already held deadlocks
(the source blocks on `s.mu.Lock()` forever). -/
theorem build_locked {i : Nat} {sp : Resolver} {w : World} {s : Service}
    (hs : w.services[i]? = some s) (hmu : s.mu = true) :
    Service.build i sp w = (.diverge, w) := by
  unfold Service.build
  rw [hs]
  simp [hmu]

theorem buildCore_Gd_aux {w w1 : World} {i : Nat} {s : Service} {args : List Value}
    (hshape : ShapeEq w.services w1.services)
    (hlock : ∀ j sj, w.services[j]? = some sj → sj.mu = true →
      j ≠ i ∧ w1.services[j]? = some sj ∧ countCtor j w1.log = countCtor j w.log)
    (hw1i : w1.services[i]? = some { s with mu := true }) :
    Gd w (buildCore i s args w1).2 := by
  have hw2i : (logCtor i w1).services[i]? = some { s with mu := true } := hw1i
  have hfin : ∀ snew : Service, svcShape { s with mu := true } snew →
      Gd w (setSvc (logCtor i w1) i snew) := by
    intro snew hsh
    refine ⟨shapeEq_trans hshape (shapeEq_set hw2i hsh), fun j sj hj hm => ?_⟩
    obtain ⟨hne, hj1, hcj⟩ := hlock j sj hj hm
    refine ⟨(setSvc_get_ne _ (fun he => hne he.symm)).trans hj1, ?_⟩
    show countCtor j (w1.log ++ [Event.ctorCall i]) = countCtor j w.log
    rw [countCtor_append, countCtor_single_ne (fun he => hne he.symm), hcj]
    omega
  have hfb : Gd w (finishBuild i (s.ctor.body args w1.fresh).1 (logCtor i w1)).2 := by
    by_cases hsing : s.lifetime = ServiceLifetime.singleton
    · rw [finishBuild_singleton _ hw2i hsing]
      exact hfin _ ⟨rfl, rfl, rfl, rfl⟩
    · rw [finishBuild_other _ hw2i hsing]
      exact hfin _ ⟨rfl, rfl, rfl, rfl⟩
  unfold buildCore
  by_cases h2 : s.ctor.outs.length = 2
  · simp only [h2, if_true]
    cases hb : (s.ctor.body args w1.fresh).2 with
    | none => exact hfb
    | some e =>
      dsimp only
      rw [unlockAt_eq hw2i]
      exact hfin _ ⟨rfl, rfl, rfl, rfl⟩
  · simp only [h2, if_false]
    exact hfb

/-- `Service.build` preserves `Gd`: descriptor identity fields are untouched,
and any descriptor whose mutex is held when the build starts is untouched
(in particular its constructor is not invoked). -/
theorem build_Gd {sp : Resolver} (H : GdResolver sp) (i : Nat) (w : World) :
    Gd w (Service.build i sp w).2 := by
  rcases hs : w.services[i]? with _ | s
  · unfold Service.build
    rw [hs]
    exact Gd_refl w
  · by_cases hmu : s.mu = true
    · rw [build_locked hs hmu]
      exact Gd_refl w
    · have hmu' : s.mu = false := by simpa using hmu
      by_cases hc : s.impl ≠ Value.nil ∧ s.lifetime = ServiceLifetime.singleton
      · rw [build_cached sp hs hmu' hc.1 hc.2]
        exact Gd_refl w
      · rw [build_main_eq hs hmu' hc]
        have hGd0 : Gd w (lockAt i w) := lockAt_Gd hs hmu'
        have h1 := resolveArgs_Gd H s.ctor.ins (lockAt i w)
        rcases hra : resolveArgs sp s.ctor.ins (lockAt i w) with ⟨ra, w1⟩
        rw [hra] at h1
        have hshape : ShapeEq w.services w1.services := shapeEq_trans hGd0.1 h1.1
        have hw1i : w1.services[i]? = some { s with mu := true } :=
          (h1.2 i _ (lockAt_get_self hs) rfl).1
        have hlock : ∀ j sj, w.services[j]? = some sj → sj.mu = true →
            j ≠ i ∧ w1.services[j]? = some sj ∧ countCtor j w1.log = countCtor j w.log := by
          intro j sj hj hm
          have hne : j ≠ i := by
            intro he
            subst he
            rw [hs] at hj
            cases hj
            rw [hm] at hmu'
            cases hmu'
          have hj0 : (lockAt i w).services[j]? = some sj := by
            rw [lockAt_eq hs]
            exact (setSvc_get_ne _ (fun he => hne he.symm)).trans hj
          obtain ⟨hj1, hc1⟩ := h1.2 j sj hj0 hm
          refine ⟨hne, hj1, ?_⟩
          rw [hc1, lockAt_log]
        cases ra with
        | ok args => exact buildCore_Gd_aux hshape hlock hw1i
        | err e =>
          dsimp only
          rw [unlockAt_eq hw1i]
          refine ⟨shapeEq_trans hshape (shapeEq_set hw1i ⟨rfl, rfl, rfl, rfl⟩),
            fun j sj hj hm => ?_⟩
          obtain ⟨hne, hj1, hcj⟩ := hlock j sj hj hm
          exact ⟨(setSvc_get_ne _ (fun he => hne he.symm)).trans hj1, hcj⟩
        | diverge =>
          dsimp only
          refine ⟨hshape, fun j sj hj hm => ?_⟩
          obtain ⟨hne, hj1, hcj⟩ := hlock j sj hj hm
          exact ⟨hj1, hcj⟩

/-- The container's type-based resolver preserves `Gd` at every fuel. -/
theorem getService_Gd : ∀ (fuel : Nat), GdResolver (Container.getService fuel)
  | 0 => fun _ w => Gd_refl w
  | Nat.succ fuel => fun t w => by
    unfold Container.getService
    cases hf : findIdxTy w.services t with
    | none => exact Gd_refl w
    | some i =>
      dsimp only
      have hb := build_Gd (getService_Gd fuel) i w
      rcases hbr : Service.build i (Container.getService fuel) w with ⟨r, w1⟩
      rw [hbr] at hb
      cases r <;> exact hb

/-- The scope-aware resolver preserves `Gd` at every fuel. -/
theorem scopeGetService_Gd (fuel : Nat) (sc : Scope) : GdResolver (Scope.getService fuel sc) := by
  intro t w
  unfold Scope.getService
  by_cases hctx : t.str = "context.Context"
  · rw [if_pos hctx]
    exact Gd_refl w
  · rw [if_neg hctx]
    cases scopeLookup sc.services t with
    | some v => exact Gd_refl w
    | none => exact getService_Gd fuel t w

/-- After a successful build of a Singleton descriptor, its cache holds the
returned instance (either it was already cached, or `finishBuild` stored it). -/
theorem build_ok_impl {sp : Resolver} (H : GdResolver sp) {i : Nat} {w : World} {s : Service}
    {v : Value} {w' : World}
    (hs : w.services[i]? = some s) (hmu : s.mu = false)
    (hsing : s.lifetime = ServiceLifetime.singleton)
    (hok : Service.build i sp w = (.ok v, w')) :
    w'.services[i]? = some { s with impl := v, mu := false } := by
  by_cases hc : s.impl ≠ Value.nil ∧ s.lifetime = ServiceLifetime.singleton
  · rw [build_cached sp hs hmu hc.1 hc.2] at hok
    cases hok
    rw [svc_impl_mu_eta hmu]
    exact hs
  · rw [build_main_eq hs hmu hc] at hok
    have h1 := resolveArgs_Gd H s.ctor.ins (lockAt i w)
    rcases hra : resolveArgs sp s.ctor.ins (lockAt i w) with ⟨ra, w1⟩
    rw [hra] at h1
    rw [hra] at hok
    cases ra with
    | ok args =>
      dsimp only at hok
      have hw1i : w1.services[i]? = some { s with mu := true } :=
        (h1.2 i _ (lockAt_get_self hs) rfl).1
      have hw2i : (logCtor i w1).services[i]? = some { s with mu := true } := hw1i
      have hlt2 : i < (logCtor i w1).services.length := get?_lt hw2i
      unfold buildCore at hok
      by_cases h2 : s.ctor.outs.length = 2
      · rw [if_pos h2] at hok
        cases hb : (s.ctor.body args w1.fresh).2 with
        | some e =>
          rw [hb] at hok
          simp at hok
        | none =>
          rw [hb] at hok
          dsimp only at hok
          rw [finishBuild_singleton _ hw2i hsing] at hok
          cases hok
          exact setSvc_get_self _ hlt2
      · rw [if_neg h2] at hok
        rw [finishBuild_singleton _ hw2i hsing] at hok
        cases hok
        exact setSvc_get_self _ hlt2
    | err e => simp at hok
    | diverge => simp at hok

/-- The scope cache lookup after an insert finds the inserted value. -/
theorem scopeLookup_insert_self : ∀ (m : List (GoType × Value)) (t : GoType) (v : Value),
    scopeLookup (scopeInsert m t v) t = some v
  | [], t, v => by simp [scopeInsert, scopeLookup]
  | (k, x) :: rest, t, v => by
    by_cases hk : k = t
    · simp [scopeInsert, scopeLookup, hk]
    · simp [scopeInsert, scopeLookup, hk, scopeLookup_insert_self rest t v]

/-! ## Claim theorems -/

/-- C3: for every Singleton descriptor, once a resolution through the
Container has produced a non-empty instance `v`, that instance is cached,
and every subsequent resolution — another `Container.GetService`, a
`Scope.GetService` through any Scope, or a raw `Service.build` with an
arbitrary resolver — returns the reference-identical `v` immediately, with
no state change (hence without invoking the resolver or the constructor). -/
theorem singleton_cached_identity
    (fuel fuel2 : Nat) (nm : String) (w w' : World) (i : Nat) (s : Service) (v : Value)
    (sc : Scope)
    (hf : findIdxName w.services nm = some i)
    (hs : w.services[i]? = some s)
    (hmu : s.mu = false)
    (hsing : s.lifetime = ServiceLifetime.singleton)
    (hv : v ≠ Value.nil)
    (h1 : Container.GetService fuel nm w = (.ok v, w')) :
    Container.GetService fuel2 nm w' = (.ok v, w') ∧
    Scope.GetService fuel2 sc nm w' = (.ok v, sc, w') ∧
    ∀ sp : Resolver, Service.build i sp w' = (.ok v, w') := by
  unfold Container.GetService at h1
  rw [hf] at h1
  dsimp only at h1
  rcases hbr : Service.build i (Container.getService fuel) w with ⟨r, w1⟩
  rw [hbr] at h1
  cases r with
  | err e => simp at h1
  | diverge => simp at h1
  | ok v0 =>
    dsimp only at h1
    have hinj : v0 = v ∧ w1 = w' := by
      simpa [Prod.mk.injEq] using h1
    rw [hinj.1, hinj.2] at hbr
    have H := getService_Gd fuel
    have himpl : w'.services[i]? = some { s with impl := v, mu := false } :=
      build_ok_impl H hs hmu hsing hbr
    have hGd : Gd w w' := by
      have hg := build_Gd H i w
      rw [hbr] at hg
      exact hg
    have hf2 : findIdxName w'.services nm = some i := by
      rw [← findIdxName_congr hGd.1]
      exact hf
    have hcache : ∀ sp : Resolver, Service.build i sp w' = (.ok v, w') := by
      intro sp
      exact build_cached sp himpl rfl hv hsing
    have hctn : Container.GetService fuel2 nm w' = (.ok v, w') := by
      unfold Container.GetService
      rw [hf2]
      dsimp only
      rw [hcache _]
    refine ⟨hctn, ?_, hcache⟩
    unfold Scope.GetService
    rw [hf2]
    dsimp only
    rw [himpl]
    dsimp only
    have hns : ¬ (({ s with impl := v, mu := false } : Service).lifetime
        = ServiceLifetime.scoped) := by
      show ¬ (s.lifetime = ServiceLifetime.scoped)
      rw [hsing]
      intro hcontra
      cases hcontra
    rw [if_neg hns, hctn]

/-- Witness for C3 at a concrete one-service container. -/
theorem singleton_cached_identity_witness :
    Container.GetService 1 "di.A" c3w1 = (.ok (Value.obj 0), c3w1) ∧
    Scope.GetService 1 Container.CreateScope "di.A" c3w1
      = (.ok (Value.obj 0), Container.CreateScope, c3w1) :=
  ⟨(singleton_cached_identity 1 1 "di.A" c3w0 c3w1 0 c3svc (Value.obj 0)
      Container.CreateScope rfl rfl rfl rfl (by decide) rfl).1,
   (singleton_cached_identity 1 1 "di.A" c3w0 c3w1 0 c3svc (Value.obj 0)
      Container.CreateScope rfl rfl rfl rfl (by decide) rfl).2.1⟩

/-- After a successful `Scope.GetService` on a Scoped descriptor, the
Scope's cache maps the descriptor's type to the returned instance, and the
container state evolved `Gd`-compatibly. -/
theorem scopeGetService_ok_scoped
    {fuel : Nat} {sc : Scope} {nm : String} {w : World} {i : Nat} {s : Service}
    {v : Value} {sc' : Scope} {w' : World}
    (hf : findIdxName w.services nm = some i)
    (hs : w.services[i]? = some s)
    (hsc : s.lifetime = ServiceLifetime.scoped)
    (h1 : Scope.GetService fuel sc nm w = (.ok v, sc', w')) :
    scopeLookup sc'.services s.typ = some v ∧ Gd w w' := by
  unfold Scope.GetService at h1
  rw [hf] at h1
  dsimp only at h1
  rw [hs] at h1
  dsimp only at h1
  rw [if_pos hsc] at h1
  cases hl : scopeLookup sc.services s.typ with
  | some impl =>
    rw [hl] at h1
    dsimp only at h1
    have hinj : impl = v ∧ sc = sc' ∧ w = w' := by
      simpa [Prod.mk.injEq] using h1
    obtain ⟨hiv, hscsc, hww⟩ := hinj
    rw [← hscsc, ← hww, hl, hiv]
    exact ⟨rfl, Gd_refl w⟩
  | none =>
    rw [hl] at h1
    dsimp only at h1
    rcases hbr : Service.build i (Scope.getService fuel sc) w with ⟨r, w1⟩
    rw [hbr] at h1
    cases r with
    | err e => simp at h1
    | diverge => simp at h1
    | ok impl =>
      dsimp only at h1
      have hinj : impl = v ∧
          ({ sc with services := scopeInsert sc.services s.typ impl } : Scope) = sc' ∧
          w1 = w' := by
        simpa [Prod.mk.injEq] using h1
      obtain ⟨hiv, hscsc, hww⟩ := hinj
      rw [hiv] at hbr hscsc
      rw [hww] at hbr
      constructor
      · rw [← hscsc]
        exact scopeLookup_insert_self _ _ _
      · have hg := build_Gd (scopeGetService_Gd fuel sc) i w
        rw [hbr] at hg
        exact hg

/-- `Scope.GetService` on a Scoped descriptor whose type is already in the
Scope's cache returns the cached instance, leaving scope and world (hence
the event log) untouched. -/
theorem scopeGetService_cache_hit
    {fuel : Nat} {sc : Scope} {nm : String} {w : World} {j : Nat} {sj : Service} {v : Value}
    (hf : findIdxName w.services nm = some j)
    (hs : w.services[j]? = some sj)
    (hsc : sj.lifetime = ServiceLifetime.scoped)
    (hl : scopeLookup sc.services sj.typ = some v) :
    Scope.GetService fuel sc nm w = (.ok v, sc, w) := by
  unfold Scope.GetService
  rw [hf]
  dsimp only
  rw [hs]
  dsimp only
  rw [if_pos hsc, hl]

/-- C1 (amended): within one Scope, direct resolutions of a Scoped
descriptor through `scope.GetService` build it at most once — after the
first successful direct resolution the instance is in the Scope's
type-keyed cache, and any further direct resolution returns that same
instance with the scope, the world and therefore the constructor-call log
unchanged.  (The original claim's "resolved as a dependency of other
Scoped descriptors, in any order" part fails: see the counterexample,
where a Scoped dependency built through the Container fall-through is not
cached, so a later direct resolution builds it a second time.) -/
theorem scoped_direct_build_once
    (fuel fuel2 : Nat) (sc sc' : Scope) (nm : String) (w w' : World) (i : Nat) (s : Service)
    (v : Value)
    (hf : findIdxName w.services nm = some i)
    (hs : w.services[i]? = some s)
    (hsc : s.lifetime = ServiceLifetime.scoped)
    (h1 : Scope.GetService fuel sc nm w = (.ok v, sc', w')) :
    scopeLookup sc'.services s.typ = some v ∧
    Scope.GetService fuel2 sc' nm w' = (.ok v, sc', w') := by
  obtain ⟨hlook, hGd⟩ := scopeGetService_ok_scoped hf hs hsc h1
  have hf2 : findIdxName w'.services nm = some i := by
    rw [← findIdxName_congr hGd.1]
    exact hf
  obtain ⟨s2, hs2, hsh⟩ := shapeEq_get? hGd.1 hs
  have hsc2 : s2.lifetime = ServiceLifetime.scoped := by
    rw [← hsh.2.2.1]
    exact hsc
  have hl2 : scopeLookup sc'.services s2.typ = some v := by
    rw [← hsh.2.1]
    exact hlook
  exact ⟨hlook, scopeGetService_cache_hit hf2 hs2 hsc2 hl2⟩

/-- Witness for the amended C1 at a concrete one-service container. -/
theorem scoped_direct_build_once_witness :
    scopeLookup c1sc1.services c1ws.typ = some (Value.obj 0) ∧
    Scope.GetService 1 c1sc1 "di.A" c1ww1 = (.ok (Value.obj 0), c1sc1, c1ww1) :=
  scoped_direct_build_once 1 1 Container.CreateScope c1sc1 "di.A" c1ww0 c1ww1 0 c1ws
    (Value.obj 0) rfl rfl rfl rfl

/-- C1 counterexample: in one Scope over a container with Scoped "A" and
Scoped "B" (B depending on A's type), resolving "B" and then "A" invokes
A's constructor twice — the dependency resolution of A fell through to the
Container and was not cached in the Scope — refuting "the descriptor's
constructor is invoked at most once during the Scope's lifetime ... in any
order of those resolutions". -/
theorem scoped_built_twice_counterexample :
    countCtor 0 c1run2.2.2.log = 2 ∧ ¬ (countCtor 0 c1run2.2.2.log ≤ 1) := by
  decide

/-- C10: the Scope's private cache is keyed by produced type, not by
descriptor: when two distinct Scoped descriptors produce the same type,
a successful resolution of the first one populates the cache entry for
that type, and a subsequent `scope.GetService` for the *other* name
returns that same cached instance with scope and world (hence the
constructor-call log) unchanged — the second descriptor's constructor is
never invoked. -/
theorem scoped_cache_keyed_by_type
    (fuel fuel2 : Nat) (sc sc' : Scope) (n1 n2 : String) (w w' : World) (i j : Nat)
    (si sj : Service) (v : Value)
    (hfi : findIdxName w.services n1 = some i)
    (hsi : w.services[i]? = some si)
    (hsci : si.lifetime = ServiceLifetime.scoped)
    (hfj : findIdxName w.services n2 = some j)
    (hsj : w.services[j]? = some sj)
    (hscj : sj.lifetime = ServiceLifetime.scoped)
    (htyp : sj.typ = si.typ)
    (h1 : Scope.GetService fuel sc n1 w = (.ok v, sc', w')) :
    Scope.GetService fuel2 sc' n2 w' = (.ok v, sc', w') := by
  obtain ⟨hlook, hGd⟩ := scopeGetService_ok_scoped hfi hsi hsci h1
  have hf2 : findIdxName w'.services n2 = some j := by
    rw [← findIdxName_congr hGd.1]
    exact hfj
  obtain ⟨sj2, hsj2, hsh⟩ := shapeEq_get? hGd.1 hsj
  have hscj2 : sj2.lifetime = ServiceLifetime.scoped := by
    rw [← hsh.2.2.1]
    exact hscj
  have hl2 : scopeLookup sc'.services sj2.typ = some v := by
    rw [← hsh.2.1, htyp]
    exact hlook
  exact scopeGetService_cache_hit hf2 hsj2 hscj2 hl2

/-- Witness for C10: after resolving Scoped "X" (type `di.A`), resolving
Scoped "Y" (same type) returns X's instance and leaves the log unchanged —
Y's constructor (which would produce `obj 100`) is never invoked. -/
theorem scoped_cache_keyed_by_type_witness :
    Scope.GetService 1 c10sc1 "Y" c10w1 = (.ok (Value.obj 0), c10sc1, c10w1) :=
  scoped_cache_keyed_by_type 1 1 Container.CreateScope c10sc1 "X" "Y" c10w0 c10w1 0 1
    c10s1 c10s2 (Value.obj 0) rfl rfl rfl rfl rfl rfl rfl rfl

/-- C7: while building a Scoped descriptor's dependencies, a requested
parameter type whose `String()` is the ambient-context type is answered
directly with the Scope's bound context value, with the world unchanged —
the Container is not consulted regardless of what is registered there; and
a Scope created without an explicit context is bound to the background
context with an empty cache. -/
theorem scope_supplies_bound_context
    (fuel : Nat) (sc : Scope) (t : GoType) (w : World)
    (hctx : t.str = "context.Context") :
    Scope.getService fuel sc t w = (.ok sc.ctx, w) ∧
    Container.CreateScope = { ctx := Value.background, services := [] } := by
  constructor
  · unfold Scope.getService
    rw [if_pos hctx]
  · rfl

/-- Witness for C7: the context type is resolved from the Scope even though
a descriptor producing `context.Context` is registered in the container. -/
theorem scope_supplies_bound_context_witness :
    Scope.getService 3 c7sc c7ty c7w = (.ok (Value.obj 42), c7w) ∧
    Container.CreateScope = { ctx := Value.background, services := [] } :=
  scope_supplies_bound_context 3 c7sc c7ty c7w rfl

theorem addService_fatal_of_newService {c : CtorArg} {w : World}
    (h : (NewService c).isFatal = true) :
    (Container.AddService c w).1.isFatal = true ∧ (Container.AddService c w).2 = w := by
  unfold Container.AddService
  cases hn : NewService c with
  | ok s => rw [hn] at h; simp [POut.isFatal] at h
  | fatal e => exact ⟨rfl, rfl⟩
  | diverge => rw [hn] at h; simp [POut.isFatal] at h

/-- C6: constructor-shape validation is fatal at registration time: for
every argument of a malformed shape (`badCtorShape`), `AddService` panics
and leaves the container's descriptor list untouched — the descriptor is
never created, so nothing is deferred to first resolution. -/
theorem addService_validation_fatal (c : CtorArg) (w : World) (hbad : badCtorShape c) :
    (Container.AddService c w).1.isFatal = true ∧ (Container.AddService c w).2 = w := by
  apply addService_fatal_of_newService
  cases c with
  | notFunc t => rfl
  | func ct =>
    unfold badCtorShape at hbad
    unfold NewService
    dsimp only at hbad ⊢
    rcases houts : ct.outs with _ | ⟨o1, _ | ⟨o2, _ | rest⟩⟩ <;>
        rw [houts] at hbad <;> dsimp only at hbad ⊢
    · rfl
    · rw [if_pos hbad]
      rfl
    · rcases hbad with hbad | hbad
      · rw [if_pos hbad]
        rfl
      · by_cases h1 : o1.implErr = true
        · rw [if_pos h1]
          rfl
        · rw [if_neg h1, if_pos hbad]
          rfl
    · rfl

/-- Witness for C6: registering a constructor with zero return values
fails fatally and leaves the (empty) container unchanged. -/
theorem addService_validation_fatal_witness :
    (Container.AddService c6bad c6w).1.isFatal = true ∧
    (Container.AddService c6bad c6w).2 = c6w :=
  addService_validation_fatal c6bad c6w trivial

theorem countCtor_single_self (i : Nat) : countCtor i [Event.ctorCall i] = 1 := by
  simp [countCtor]

/-- C9: a Singleton descriptor whose constructor returns the nil value is
never treated as cached — the cache guard requires a non-empty stored
instance — so a build succeeds with `nil`, stores nothing usable, and an
immediately following build runs the whole construction again: both builds
append a `ctorCall`, so the constructor runs twice. -/
theorem singleton_nil_never_cached
    (sp : Resolver) (i : Nat) (w : World) (s : Service)
    (hs : w.services[i]? = some s)
    (hmu : s.mu = false)
    (himpl : s.impl = Value.nil)
    (hsing : s.lifetime = ServiceLifetime.singleton)
    (hins : s.ctor.ins = [])
    (houts1 : s.ctor.outs.length = 1)
    (hbody : ∀ n, (s.ctor.body [] n).1 = Value.nil) :
    Service.build i sp w = (.ok Value.nil, logCtor i w) ∧
    Service.build i sp (logCtor i w) = (.ok Value.nil, logCtor i (logCtor i w)) ∧
    countCtor i (logCtor i (logCtor i w)).log = countCtor i w.log + 2 := by
  have hnc : ¬ (s.impl ≠ Value.nil ∧ s.lifetime = ServiceLifetime.singleton) := by
    intro hcon
    exact hcon.1 himpl
  have step : ∀ w0 : World, w0.services[i]? = some s →
      Service.build i sp w0 = (.ok Value.nil, logCtor i w0) := by
    intro w0 hs0
    rw [build_main_eq hs0 hmu hnc, hins]
    dsimp only [resolveArgs]
    unfold buildCore
    have h2 : ¬ (s.ctor.outs.length = 2) := by
      rw [houts1]
      omega
    rw [if_neg h2]
    have hw2i : (logCtor i (lockAt i w0)).services[i]? = some { s with mu := true } :=
      lockAt_get_self hs0
    rw [finishBuild_singleton _ hw2i hsing]
    have hfr : (lockAt i w0).fresh = w0.fresh := by
      rw [lockAt_eq hs0]
      rfl
    rw [hfr, hbody w0.fresh]
    have hsvc : ({ ({ s with mu := true } : Service) with
        impl := Value.nil, mu := false } : Service) = s := by
      rw [show ({ ({ s with mu := true } : Service) with impl := Value.nil, mu := false }
          : Service) = { s with impl := Value.nil, mu := false } from rfl, ← himpl]
      exact svc_impl_mu_eta hmu
    rw [hsvc]
    rw [lockAt_eq hs0]
    show (Res.ok Value.nil,
      setSvc (logCtor i (setSvc w0 i { s with mu := true })) i s) = _
    unfold logCtor setSvc
    dsimp only
    rw [List.set_set, set_of_get? _ _ _ hs0]
  have hs1 : (logCtor i w).services[i]? = some s := hs
  refine ⟨step w hs, step (logCtor i w) hs1, ?_⟩
  show countCtor i ((w.log ++ [Event.ctorCall i]) ++ [Event.ctorCall i])
      = countCtor i w.log + 2
  rw [countCtor_append, countCtor_append, countCtor_single_self]

/-- Witness for C9 at a concrete nil-returning Singleton. -/
theorem singleton_nil_never_cached_witness :
    Service.build 0 (Container.getService 1) c9w = (.ok Value.nil, logCtor 0 c9w) ∧
    Service.build 0 (Container.getService 1) (logCtor 0 c9w)
      = (.ok Value.nil, logCtor 0 (logCtor 0 c9w)) ∧
    countCtor 0 (logCtor 0 (logCtor 0 c9w)).log = countCtor 0 c9w.log + 2 :=
  singleton_nil_never_cached (Container.getService 1) 0 c9w c9svc rfl rfl rfl rfl rfl rfl
    (fun _ => rfl)

theorem svc_set_impl_mu_eta {s : Service} (h : s.mu = false) (v : Value) :
    ({ s with impl := v, mu := false } : Service) = { s with impl := v } := by
  rcases s with ⟨n, t, l, c, im, d, m⟩
  dsimp only at h
  subst h
  rfl

/-- A not-yet-cached Singleton with a dependency-free constructor builds in
one step: the constructor runs on the current fresh seed and the result is
stored in the descriptor's cache. -/
theorem build_empty_ins_singleton
    {sp : Resolver} {i : Nat} {w0 : World} {s : Service}
    (hs0 : w0.services[i]? = some s) (hmu : s.mu = false)
    (himpl : s.impl = Value.nil) (hsing : s.lifetime = ServiceLifetime.singleton)
    (hins : s.ctor.ins = []) (houts1 : s.ctor.outs.length = 1) :
    Service.build i sp w0
      = (.ok (s.ctor.body [] w0.fresh).1,
         setSvc (logCtor i w0) i { s with impl := (s.ctor.body [] w0.fresh).1 }) := by
  have hnc : ¬ (s.impl ≠ Value.nil ∧ s.lifetime = ServiceLifetime.singleton) :=
    fun hcon => hcon.1 himpl
  rw [build_main_eq hs0 hmu hnc, hins]
  dsimp only [resolveArgs]
  unfold buildCore
  have h2 : ¬ (s.ctor.outs.length = 2) := by
    rw [houts1]
    omega
  rw [if_neg h2]
  have hfr : (lockAt i w0).fresh = w0.fresh := by
    rw [lockAt_eq hs0]
    rfl
  rw [hfr]
  have hw2i : (logCtor i (lockAt i w0)).services[i]? = some { s with mu := true } :=
    lockAt_get_self hs0
  rw [finishBuild_singleton _ hw2i hsing]
  rw [lockAt_eq hs0]
  show (Res.ok _, setSvc (logCtor i (setSvc w0 i { s with mu := true })) i
      { s with impl := (s.ctor.body [] w0.fresh).1, mu := false }) = _
  unfold logCtor setSvc
  dsimp only
  rw [List.set_set, svc_set_impl_mu_eta hmu]

/-- C2 (amended/corrected): `Clean` disposes and clears the cache, but it is
not disposal-idempotent: the disposer callback reference is never cleared,
so a second `Clean` invokes the disposer again, this time receiving the nil
instance — the disposer runs once per `Clean`, not at most once in total.
`Dispose` with no disposer set only clears the cache (no disposer
invocation).  After `Clean`, the Container still answers `GetService` for
the same Singleton by re-running its constructor and re-caching. -/
theorem clean_twice_disposer
    (s : Service) (ctxv : Value) (f : Nat) (l0 : List Event)
    (hd : s.dipsose = true)
    (hmu : s.mu = false)
    (hsing : s.lifetime = ServiceLifetime.singleton)
    (hins : s.ctor.ins = [])
    (houts1 : s.ctor.outs.length = 1) :
    Container.Clean ctxv ⟨[s], f, l0⟩
      = ⟨[{ s with impl := Value.nil }], f, l0 ++ [Event.disposeCall 0 ctxv s.impl]⟩ ∧
    Container.Clean ctxv ⟨[{ s with impl := Value.nil }], f,
        l0 ++ [Event.disposeCall 0 ctxv s.impl]⟩
      = ⟨[{ s with impl := Value.nil }], f,
         l0 ++ [Event.disposeCall 0 ctxv s.impl, Event.disposeCall 0 ctxv Value.nil]⟩ ∧
    (∀ s' : Service, s'.dipsose = false →
      Container.Clean ctxv ⟨[s'], f, l0⟩ = ⟨[{ s' with impl := Value.nil }], f, l0⟩) ∧
    Container.GetService 1 s.name
        ⟨[{ s with impl := Value.nil }], f,
         l0 ++ [Event.disposeCall 0 ctxv s.impl, Event.disposeCall 0 ctxv Value.nil]⟩
      = (.ok (s.ctor.body [] f).1,
         ⟨[{ s with impl := (s.ctor.body [] f).1 }], f + 1,
          (l0 ++ [Event.disposeCall 0 ctxv s.impl, Event.disposeCall 0 ctxv Value.nil])
            ++ [Event.ctorCall 0]⟩) := by
  have hclean : ∀ (s0 : Service) (f0 : Nat) (l : List Event),
      Container.Clean ctxv ⟨[s0], f0, l⟩ = Service.Dispose 0 ctxv ⟨[s0], f0, l⟩ := by
    intro s0 f0 l
    rfl
  refine ⟨?_, ?_, ?_, ?_⟩
  · rw [hclean]
    unfold Service.Dispose
    simp [hd, setSvc, List.set]
  · rw [hclean]
    unfold Service.Dispose
    simp [hd, setSvc, List.set]
  · intro s' hd'
    rw [hclean]
    unfold Service.Dispose
    simp [hd', setSvc, List.set]
  · have hbuild := @build_empty_ins_singleton
      (Container.getService 1) 0
      ⟨[{ s with impl := Value.nil }], f,
         l0 ++ [Event.disposeCall 0 ctxv s.impl, Event.disposeCall 0 ctxv Value.nil]⟩
      { s with impl := Value.nil }
      rfl hmu rfl hsing hins houts1
    unfold Container.GetService
    have hfind : findIdxName [({ s with impl := Value.nil } : Service)] s.name = some 0 := by
      unfold findIdxName
      rw [List.findIdx?_cons]
      simp
    show (match findIdxName [({ s with impl := Value.nil } : Service)] s.name with
      | none => (POut.fatal (GoErr.notFound s.name), _)
      | some i => _) = _
    rw [hfind]
    dsimp only
    rw [hbuild]
    rfl

/-- Witness for the amended C2: the second `Clean` on a concrete container
re-invokes the disposer with the nil instance. -/
theorem clean_twice_disposer_witness :
    Container.Clean Value.background ⟨[{ c2svc with impl := Value.nil }], 1,
        [] ++ [Event.disposeCall 0 Value.background c2svc.impl]⟩
      = ⟨[{ c2svc with impl := Value.nil }], 1,
         [] ++ [Event.disposeCall 0 Value.background c2svc.impl,
                Event.disposeCall 0 Value.background Value.nil]⟩ :=
  (clean_twice_disposer c2svc Value.background 1 [] rfl rfl rfl rfl rfl).2.1

/-- C2 counterexample: on a container holding one built Singleton with a
disposer, calling `Clean` twice in a row invokes the disposer twice in
total, refuting "invokes each built Singleton descriptor's disposer at most
once in total" (and the second invocation, with no instance cached, is an
observable disposer call, refuting the safe-no-op reading). -/
theorem clean_twice_counterexample :
    countDispose 0 (Container.Clean Value.background
        (Container.Clean Value.background c2w)).log = 2 ∧
    ¬ (countDispose 0 (Container.Clean Value.background
        (Container.Clean Value.background c2w)).log ≤ 1) := by
  decide

/-- C5 (amended): resolving a registered descriptor whose (first)
constructor parameter type has no matching registration makes
`Container.GetService` panic, leaving the world unchanged; the panic
wraps the resolver failure, whose message embeds the missing type's
reflect `Name()` — the bare type name for a defined (non-pointer) type,
but the empty string for a pointer type, so a pointer-typed missing
dependency is not actually named in the message. -/
theorem missing_dependency_fatal
    (fuel : Nat) (nm : String) (w : World) (i : Nat) (s : Service) (t : GoType)
    (rest : List GoType)
    (hf : findIdxName w.services nm = some i)
    (hs : w.services[i]? = some s)
    (hmu : s.mu = false)
    (hnc : ¬ (s.impl ≠ Value.nil ∧ s.lifetime = ServiceLifetime.singleton))
    (hins : s.ctor.ins = t :: rest)
    (hmiss : findIdxTy w.services t = none) :
    Container.GetService (fuel + 1) nm w
      = (.fatal (GoErr.buildFail s.name (GoErr.resolveFail t.name)), w) ∧
    (GoErr.buildFail s.name (GoErr.resolveFail t.name)).message
      = "container: failed to build " ++ s.name ++ ", "
        ++ ("container: failed to resolve " ++ t.name) ∧
    (t.isPtr = false → t.name = t.nm) ∧
    (t.isPtr = true → t.name = "") := by
  refine ⟨?_, rfl, fun h => by rw [GoType.name, h]; rfl, fun h => by rw [GoType.name, h]; rfl⟩
  unfold Container.GetService
  rw [hf]
  dsimp only
  have hres : Container.getService (fuel + 1) t (lockAt i w)
      = (.err (GoErr.resolveFail t.name), lockAt i w) := by
    unfold Container.getService
    have hmiss2 : findIdxTy (lockAt i w).services t = none := by
      rw [← findIdxTy_congr (lockAt_Gd hs hmu).1]
      exact hmiss
    rw [hmiss2]
  have hargs : resolveArgs (Container.getService (fuel + 1)) (t :: rest) (lockAt i w)
      = (.err (GoErr.resolveFail t.name), lockAt i w) := by
    unfold resolveArgs
    rw [hres]
  rw [build_main_eq hs hmu hnc, hins, hargs]
  dsimp only
  have hunlock : unlockAt i (lockAt i w) = w := by
    rw [unlockAt_eq (lockAt_get_self hs)]
    show setSvc (lockAt i w) i { s with mu := false } = w
    rw [lockAt_eq hs]
    unfold setSvc
    dsimp only
    rw [List.set_set, svc_mu_eta hmu, set_of_get? _ _ _ hs]
  rw [hunlock]
  have hname : svcNameAt w i = s.name := by
    unfold svcNameAt
    rw [hs]
  rw [hname]

/-- Witness for the amended C5 at a concrete container whose only service
needs the unregistered pointer type `*di.testDependency2`. -/
theorem missing_dependency_fatal_witness :
    Container.GetService 1 "di.testService" c5w
      = (.fatal (GoErr.buildFail "di.testService" (GoErr.resolveFail (GoType.name c5t))), c5w) ∧
    (GoErr.buildFail "di.testService" (GoErr.resolveFail (GoType.name c5t))).message
      = "container: failed to build " ++ "di.testService" ++ ", "
        ++ ("container: failed to resolve " ++ GoType.name c5t) :=
  ⟨(missing_dependency_fatal 0 "di.testService" c5w 0 c5svc c5t [] rfl rfl rfl
      (by decide) rfl rfl).1,
   (missing_dependency_fatal 0 "di.testService" c5w 0 c5svc c5t [] rfl rfl rfl
      (by decide) rfl rfl).2.1⟩

/-- C5 counterexample: with the only registered descriptor requiring the
unregistered pointer type `*di.testDependency2`, `GetService` panics with
the message "container: failed to build di.testService, container: failed
to resolve " — `Name()` of a pointer type is empty, so the message does
not name (or even mention) the missing type, refuting "the propagated
message names the missing type". -/
theorem missing_type_not_named_counterexample :
    (Container.GetService 1 "di.testService" c5w).1
      = POut.fatal (GoErr.buildFail "di.testService" (GoErr.resolveFail "")) ∧
    strContains ((GoErr.buildFail "di.testService" (GoErr.resolveFail "")).message)
      "testDependency2" = false ∧
    strContains ((GoErr.buildFail "di.testService" (GoErr.resolveFail "")).message)
      (GoType.str c5t) = false := by
  decide

theorem unlockAt_locked_eq {w : World} {i : Nat} {s : Service}
    (hs : w.services[i]? = some { s with mu := true }) :
    unlockAt i w = setSvc w i { s with mu := false } := by
  rw [unlockAt_eq hs]

theorem resolveArgs_prefix_err {sp : Resolver} :
    ∀ {ts : List GoType} {w wA : World} {args : List Value} {t : GoType}
      {rest : List GoType} {e : GoErr} {wB : World},
    resolveArgs sp ts w = (.ok args, wA) →
    sp t wA = (.err e, wB) →
    resolveArgs sp (ts ++ t :: rest) w = (.err e, wB) := by
  intro ts
  induction ts with
  | nil =>
    intro w wA args t rest e wB hok herr
    have h2 : ([] : List Value) = args ∧ w = wA := by
      simpa [resolveArgs] using hok
    show resolveArgs sp (t :: rest) w = _
    unfold resolveArgs
    rw [h2.2, herr]
  | cons u us ih =>
    intro w wA args t rest e wB hok herr
    show resolveArgs sp (u :: (us ++ t :: rest)) w = _
    unfold resolveArgs at hok ⊢
    rcases hsp : sp u w with ⟨r1, w1⟩
    rw [hsp] at hok
    cases r1 with
    | ok v =>
      dsimp only at hok ⊢
      rcases hra : resolveArgs sp us w1 with ⟨r2, w2⟩
      rw [hra] at hok
      cases r2 with
      | ok vs =>
        dsimp only at hok
        have h2 : v :: vs = args ∧ w2 = wA := by
          simpa using hok
        have herr2 : sp t w2 = (.err e, wB) := by
          rw [h2.2]
          exact herr
        rw [ih hra herr2]
      | err e2 => simp at hok
      | diverge => simp at hok
    | err e2 => simp at hok
    | diverge => simp at hok

/-- C4: `Service.build` is fail-fast and atomic on error.  First part: if
resolving a parameter fails (after a prefix of successfully resolved
parameters), the build returns exactly that failure with no further work —
the world is the failing resolver call's world with only the descriptor's
mutex released, the descriptor (in particular its cache) is exactly as
before the build, and its constructor was not invoked.  Second part: if
the constructor declares two return values and returns a non-empty error,
the build fails with that error and the descriptor (in particular its
cache) is exactly as before the build — nothing is stored on any error
path. -/
theorem build_error_paths :
    (∀ (sp : Resolver) (i : Nat) (w : World) (s : Service) (ts : List GoType) (t : GoType)
        (rest : List GoType) (args : List Value) (e : GoErr) (wA wB : World),
      GdResolver sp →
      w.services[i]? = some s → s.mu = false →
      ¬ (s.impl ≠ Value.nil ∧ s.lifetime = ServiceLifetime.singleton) →
      s.ctor.ins = ts ++ t :: rest →
      resolveArgs sp ts (lockAt i w) = (.ok args, wA) →
      sp t wA = (.err e, wB) →
      Service.build i sp w = (.err e, unlockAt i wB) ∧
      (unlockAt i wB).services[i]? = some s ∧
      countCtor i (unlockAt i wB).log = countCtor i w.log) ∧
    (∀ (sp : Resolver) (i : Nat) (w : World) (s : Service) (args : List Value) (v : Value)
        (e : GoErr) (wA : World),
      GdResolver sp →
      w.services[i]? = some s → s.mu = false →
      ¬ (s.impl ≠ Value.nil ∧ s.lifetime = ServiceLifetime.singleton) →
      resolveArgs sp s.ctor.ins (lockAt i w) = (.ok args, wA) →
      s.ctor.outs.length = 2 →
      s.ctor.body args wA.fresh = (v, some e) →
      Service.build i sp w = (.err e, unlockAt i (logCtor i wA)) ∧
      (unlockAt i (logCtor i wA)).services[i]? = some s ∧
      countCtor i (unlockAt i (logCtor i wA)).log = countCtor i w.log + 1) := by
  constructor
  · intro sp i w s ts t rest args e wA wB H hs hmu hnc hins hok herr
    have hGdA : Gd (lockAt i w) wA := by
      have hx := resolveArgs_Gd H ts (lockAt i w)
      rw [hok] at hx
      exact hx
    have hGdB : Gd wA wB := by
      have hx := H t wA
      rw [herr] at hx
      exact hx
    have hAi : wA.services[i]? = some { s with mu := true } :=
      (hGdA.2 i _ (lockAt_get_self hs) rfl).1
    obtain ⟨hBi, hBc⟩ := hGdB.2 i _ hAi rfl
    refine ⟨?_, ?_, ?_⟩
    · rw [build_main_eq hs hmu hnc, hins, resolveArgs_prefix_err hok herr]
    · rw [unlockAt_locked_eq hBi, svc_mu_eta hmu]
      exact setSvc_get_self _ (get?_lt hBi)
    · have hlog : (unlockAt i wB).log = wB.log := by
        rw [unlockAt_locked_eq hBi]
        rfl
      rw [hlog, hBc, (hGdA.2 i _ (lockAt_get_self hs) rfl).2, lockAt_log]
  · intro sp i w s args v e wA H hs hmu hnc hra h2 hb
    have hGdA : Gd (lockAt i w) wA := by
      have hx := resolveArgs_Gd H s.ctor.ins (lockAt i w)
      rw [hra] at hx
      exact hx
    have hAi : wA.services[i]? = some { s with mu := true } :=
      (hGdA.2 i _ (lockAt_get_self hs) rfl).1
    have hLi : (logCtor i wA).services[i]? = some { s with mu := true } := hAi
    refine ⟨?_, ?_, ?_⟩
    · rw [build_main_eq hs hmu hnc, hra]
      dsimp only
      unfold buildCore
      rw [if_pos h2, hb]
    · rw [unlockAt_locked_eq hLi, svc_mu_eta hmu]
      exact setSvc_get_self _ (get?_lt hLi)
    · have hlog : (unlockAt i (logCtor i wA)).log = wA.log ++ [Event.ctorCall i] := by
        rw [unlockAt_locked_eq hLi]
        rfl
      rw [hlog, countCtor_append, countCtor_single_self,
        (hGdA.2 i _ (lockAt_get_self hs) rfl).2, lockAt_log]

theorem c4sp_Gd : GdResolver c4sp := by
  intro t w
  unfold c4sp
  split
  · exact Gd_refl w
  · exact Gd_refl w

/-- Witness for C4: both error paths at concrete configurations — a
resolver failing on the second parameter after the first resolved, and a
constructor returning a non-empty error. -/
theorem build_error_paths_witness :
    (Service.build 0 c4sp c4w1 = (.err (GoErr.userErr "boom"), unlockAt 0 (lockAt 0 c4w1)) ∧
     (unlockAt 0 (lockAt 0 c4w1)).services[0]? = some c4s1 ∧
     countCtor 0 (unlockAt 0 (lockAt 0 c4w1)).log = countCtor 0 c4w1.log) ∧
    (Service.build 0 c4sp c4w2
        = (.err (GoErr.userErr "ctorfail"), unlockAt 0 (logCtor 0 (lockAt 0 c4w2))) ∧
     (unlockAt 0 (logCtor 0 (lockAt 0 c4w2))).services[0]? = some c4s2 ∧
     countCtor 0 (unlockAt 0 (logCtor 0 (lockAt 0 c4w2))).log = countCtor 0 c4w2.log + 1) :=
  ⟨build_error_paths.1 c4sp 0 c4w1 c4s1 [⟨false, "di", "P", false⟩] ⟨false, "di", "Q", false⟩
      [] [Value.obj 99] (GoErr.userErr "boom") (lockAt 0 c4w1) (lockAt 0 c4w1)
      c4sp_Gd rfl rfl (by decide) rfl rfl rfl,
   build_error_paths.2 c4sp 0 c4w2 c4s2 [] Value.nil (GoErr.userErr "ctorfail")
      (lockAt 0 c4w2) c4sp_Gd rfl rfl (by decide) rfl rfl rfl⟩

theorem shapeEq_drop : ∀ {l l' : List Service}, ShapeEq l l' →
    ∀ (k : Nat), ShapeEq (l.drop k) (l'.drop k)
  | _, _, List.Forall₂.nil, _ => by
    simp only [List.drop_nil]
    exact List.Forall₂.nil
  | _, _, List.Forall₂.cons hh ht, 0 => List.Forall₂.cons hh ht
  | _, _, List.Forall₂.cons hh ht, Nat.succ k => by
    simp only [List.drop_succ_cons]
    exact shapeEq_drop ht k

theorem getServicesLoop_no_match {fuel : Nat} {t : GoType} :
    ∀ (n i : Nat) (w : World), (∀ s ∈ w.services, ¬ s.typ = t) →
    Container.getServicesLoop fuel t i n w = (.ok [], w) := by
  intro n
  induction n with
  | zero => intro i w _; rfl
  | succ n ih =>
    intro i w hno
    unfold Container.getServicesLoop
    cases hsi : w.services[i]? with
    | none => rfl
    | some s =>
      dsimp only
      rw [if_neg (hno s (List.getElem?_mem hsi))]
      exact ih (i + 1) w hno

theorem getServicesLoop_length {fuel : Nat} {t : GoType} :
    ∀ (n i : Nat) (w : World) (vs : List Value) (w' : World),
    i + n = w.services.length →
    Container.getServicesLoop fuel t i n w = (.ok vs, w') →
    vs.length = (w.services.drop i).countP (fun s => decide (s.typ = t)) := by
  intro n
  induction n with
  | zero =>
    intro i w vs w' hlen h
    have h2 : ([] : List Value) = vs ∧ w = w' := by
      simpa [Container.getServicesLoop] using h
    rw [← h2.1, List.drop_eq_nil_of_le (by omega)]
    rfl
  | succ n ih =>
    intro i w vs w' hlen h
    have hlt : i < w.services.length := by omega
    have hsi : w.services[i]? = some w.services[i] := List.getElem?_eq_getElem hlt
    unfold Container.getServicesLoop at h
    rw [hsi] at h
    dsimp only at h
    have hdrop : w.services.drop i = w.services[i] :: w.services.drop (i + 1) :=
      List.drop_eq_getElem_cons hlt
    by_cases hty : w.services[i].typ = t
    · rw [if_pos hty] at h
      rcases hb : Service.build i (Container.getService fuel) w with ⟨r, w1⟩
      rw [hb] at h
      cases r with
      | ok v =>
        dsimp only at h
        rcases hrec : Container.getServicesLoop fuel t (i + 1) n w1 with ⟨r2, w2⟩
        rw [hrec] at h
        cases r2 with
        | ok vs2 =>
          have h2 : v :: vs2 = vs ∧ w2 = w' := by
            simpa using h
          have hGd : Gd w w1 := by
            have hg := build_Gd (getService_Gd fuel) i w
            rw [hb] at hg
            exact hg
          have hlen1 : (i + 1) + n = w1.services.length := by
            rw [← shapeEq_length hGd.1]
            omega
          have hrecl := ih (i + 1) w1 vs2 w2 hlen1 hrec
          have htrans : (w1.services.drop (i + 1)).countP (fun s => decide (s.typ = t))
              = (w.services.drop (i + 1)).countP (fun s => decide (s.typ = t)) :=
            (countP_typ_congr (shapeEq_drop hGd.1 (i + 1)) t).symm
          rw [← h2.1, hdrop, List.countP_cons]
          simp only [List.length_cons, hrecl, htrans, hty]
          simp
        | fatal e => simp at h
        | diverge => simp at h
      | err e => simp at h
      | diverge => simp at h
    · rw [if_neg hty] at h
      have hrecl := ih (i + 1) w vs w' (by omega) h
      rw [hrecl, hdrop, List.countP_cons]
      simp [hty]

theorem getServicesLoop_fatal {fuel : Nat} {t : GoType} :
    ∀ (n i : Nat) (w : World) (e : GoErr) (w' : World),
    Container.getServicesLoop fuel t i n w = (.fatal e, w') →
    e.isBuildFail = true := by
  intro n
  induction n with
  | zero =>
    intro i w e w' h
    simp [Container.getServicesLoop] at h
  | succ n ih =>
    intro i w e w' h
    unfold Container.getServicesLoop at h
    cases hsi : w.services[i]? with
    | none =>
      rw [hsi] at h
      simp at h
    | some s =>
      rw [hsi] at h
      dsimp only at h
      by_cases hty : s.typ = t
      · rw [if_pos hty] at h
        rcases hb : Service.build i (Container.getService fuel) w with ⟨r, w1⟩
        rw [hb] at h
        cases r with
        | ok v =>
          dsimp only at h
          rcases hrec : Container.getServicesLoop fuel t (i + 1) n w1 with ⟨r2, w2⟩
          rw [hrec] at h
          cases r2 with
          | ok vs2 => simp at h
          | fatal e2 =>
            have h2 : e2 = e ∧ w2 = w' := by
              simpa using h
            rw [← h2.1]
            exact ih (i + 1) w1 e2 w2 hrec
          | diverge => simp at h
        | err e2 =>
          have h2 : GoErr.buildFail s.name e2 = e ∧ w1 = w' := by
            simpa using h
          rw [← h2.1]
          rfl
        | diverge => simp at h
      · rw [if_neg hty] at h
        exact ih (i + 1) w e w' h

theorem svcShape_symm {a b : Service} (h : svcShape a b) : svcShape b a :=
  ⟨h.1.symm, h.2.1.symm, h.2.2.1.symm, h.2.2.2.symm⟩

theorem shapeEq_symm : ∀ {l l' : List Service}, ShapeEq l l' → ShapeEq l' l
  | _, _, List.Forall₂.nil => List.Forall₂.nil
  | _, _, List.Forall₂.cons hh ht => List.Forall₂.cons (svcShape_symm hh) (shapeEq_symm ht)

theorem matchesAt_congr {w w1 : World} (h : ShapeEq w.services w1.services)
    (t : GoType) (j : Nat) : matchesAt w t j = matchesAt w1 t j := by
  unfold matchesAt
  cases hj : w.services[j]? with
  | none =>
    cases hj1 : w1.services[j]? with
    | none => rfl
    | some s1 =>
      exfalso
      have hlt : j < w.services.length := by
        rw [shapeEq_length h]
        exact get?_lt hj1
      rw [List.getElem?_eq_getElem hlt] at hj
      cases hj
  | some s =>
    obtain ⟨s1, hj1, hsh⟩ := shapeEq_get? h hj
    rw [hj1]
    dsimp only
    rw [hsh.2.1]

theorem getServicesLoop_ok_seq {fuel : Nat} {t : GoType} :
    ∀ (n i : Nat) (w : World) (vs : List Value) (w' : World),
    i + n = w.services.length →
    Container.getServicesLoop fuel t i n w = (.ok vs, w') →
    BuildsSeq fuel ((List.range' i n).filter (matchesAt w t)) w vs w' := by
  intro n
  induction n with
  | zero =>
    intro i w vs w' _ h
    have h2 : ([] : List Value) = vs ∧ w = w' := by
      simpa [Container.getServicesLoop] using h
    rw [← h2.1, ← h2.2]
    exact rfl
  | succ n ih =>
    intro i w vs w' hlen h
    have hlt : i < w.services.length := by omega
    have hsi : w.services[i]? = some w.services[i] := List.getElem?_eq_getElem hlt
    unfold Container.getServicesLoop at h
    rw [hsi] at h
    dsimp only at h
    rw [List.range'_succ]
    by_cases hty : w.services[i].typ = t
    · have hm : matchesAt w t i = true := by
        unfold matchesAt
        rw [hsi]
        simp [hty]
      rw [if_pos hty] at h
      rw [List.filter_cons_of_pos hm]
      rcases hb : Service.build i (Container.getService fuel) w with ⟨r, w1⟩
      rw [hb] at h
      cases r with
      | ok v =>
        dsimp only at h
        rcases hrec : Container.getServicesLoop fuel t (i + 1) n w1 with ⟨r2, w2⟩
        rw [hrec] at h
        cases r2 with
        | ok vs2 =>
          have h2 : v :: vs2 = vs ∧ w2 = w' := by
            simpa using h
          have hGd : Gd w w1 := by
            have hg := build_Gd (getService_Gd fuel) i w
            rw [hb] at hg
            exact hg
          have hlen1 : (i + 1) + n = w1.services.length := by
            rw [← shapeEq_length hGd.1]
            omega
          have hseq := ih (i + 1) w1 vs2 w2 hlen1 hrec
          have hfc : (List.range' (i + 1) n).filter (matchesAt w1 t)
              = (List.range' (i + 1) n).filter (matchesAt w t) :=
            List.filter_congr (fun j _ => (matchesAt_congr hGd.1 t j).symm)
          rw [hfc] at hseq
          rw [← h2.1, ← h2.2]
          exact ⟨w1, hb, hseq⟩
        | fatal e => simp at h
        | diverge => simp at h
      | err e => simp at h
      | diverge => simp at h
    · have hm : ¬ matchesAt w t i = true := by
        unfold matchesAt
        rw [hsi]
        simp [hty]
      rw [if_neg hty] at h
      rw [List.filter_cons_of_neg hm]
      exact ih (i + 1) w vs w' (by omega) h

theorem getServicesLoop_fatal_seq {fuel : Nat} {t : GoType} :
    ∀ (n i : Nat) (w : World) (e : GoErr) (w' : World),
    i + n = w.services.length →
    Container.getServicesLoop fuel t i n w = (.fatal e, w') →
    ∃ pre j rest vs0 wmid sj cause,
      (List.range' i n).filter (matchesAt w t) = pre ++ j :: rest ∧
      BuildsSeq fuel pre w vs0 wmid ∧
      w.services[j]? = some sj ∧
      Service.build j (Container.getService fuel) wmid = (.err cause, w') ∧
      e = GoErr.buildFail sj.name cause := by
  intro n
  induction n with
  | zero =>
    intro i w e w' _ h
    simp [Container.getServicesLoop] at h
  | succ n ih =>
    intro i w e w' hlen h
    have hlt : i < w.services.length := by omega
    have hsi : w.services[i]? = some w.services[i] := List.getElem?_eq_getElem hlt
    unfold Container.getServicesLoop at h
    rw [hsi] at h
    dsimp only at h
    rw [List.range'_succ]
    by_cases hty : w.services[i].typ = t
    · have hm : matchesAt w t i = true := by
        unfold matchesAt
        rw [hsi]
        simp [hty]
      rw [if_pos hty] at h
      rw [List.filter_cons_of_pos hm]
      rcases hb : Service.build i (Container.getService fuel) w with ⟨r, w1⟩
      rw [hb] at h
      cases r with
      | ok v =>
        dsimp only at h
        rcases hrec : Container.getServicesLoop fuel t (i + 1) n w1 with ⟨r2, w2⟩
        rw [hrec] at h
        cases r2 with
        | ok vs2 => simp at h
        | fatal e2 =>
          have h2 : e2 = e ∧ w2 = w' := by
            simpa using h
          have hGd : Gd w w1 := by
            have hg := build_Gd (getService_Gd fuel) i w
            rw [hb] at hg
            exact hg
          have hlen1 : (i + 1) + n = w1.services.length := by
            rw [← shapeEq_length hGd.1]
            omega
          obtain ⟨pre1, j, rest1, vs1, wmid, sj1, cause, hsplit, hseq, hj1, hbf, he⟩ :=
            ih (i + 1) w1 e2 w2 hlen1 hrec
          have hfc : (List.range' (i + 1) n).filter (matchesAt w t)
              = (List.range' (i + 1) n).filter (matchesAt w1 t) :=
            List.filter_congr (fun j2 _ => matchesAt_congr hGd.1 t j2)
          obtain ⟨sj, hjw, hsh⟩ := shapeEq_get? (shapeEq_symm hGd.1) hj1
          refine ⟨i :: pre1, j, rest1, v :: vs1, wmid, sj, cause, ?_, ?_, hjw, ?_, ?_⟩
          · rw [hfc, hsplit]
            rfl
          · exact ⟨w1, hb, hseq⟩
          · rw [← h2.2]
            exact hbf
          · rw [hsh.1] at he
            rw [← h2.1]
            exact he
        | diverge => simp at h
      | err cause =>
        have h2 : GoErr.buildFail (w.services[i]).name cause = e ∧ w1 = w' := by
          simpa using h
        refine ⟨[], i, (List.range' (i + 1) n).filter (matchesAt w t), [], w,
          w.services[i], cause, rfl, rfl, hsi, ?_, h2.1.symm⟩
        rw [← h2.2]
        exact hb
      | diverge => simp at h
    · have hm : ¬ matchesAt w t i = true := by
        unfold matchesAt
        rw [hsi]
        simp [hty]
      rw [if_neg hty] at h
      rw [List.filter_cons_of_neg hm]
      exact ih (i + 1) w e w' (by omega) h

/-- C8: `Container.GetServices` returns one built instance per descriptor
matching the requested type, in registration order: a successful run is
exactly a left-to-right sequence of `Service.build` calls over the
increasing list of matching indices, the k-th result element being the
instance built from the k-th matching descriptor (each by its own
`Service.build`, which applies that descriptor's own lifetime policy), so
in particular the result length is the number of matching descriptors.
When nothing matches it returns the empty sequence with the world
untouched (never a panic).  When a matching build fails, the preceding
matches were built in order and the call panics with exactly the
`buildFail`-wrapped fatal signal `getService` uses, naming the failing
descriptor. -/
theorem getServices_spec (fuel : Nat) (t : GoType) (w : World) :
    ((∀ s ∈ w.services, ¬ s.typ = t) → Container.GetServices fuel t w = (.ok [], w)) ∧
    (∀ vs w', Container.GetServices fuel t w = (.ok vs, w') →
      BuildsSeq fuel (matchingIdxs w t) w vs w' ∧
      vs.length = w.services.countP (fun s => decide (s.typ = t))) ∧
    (∀ e w', Container.GetServices fuel t w = (.fatal e, w') →
      FailsAfter fuel t w e w' ∧ e.isBuildFail = true) := by
  have hbridge : matchingIdxs w t
      = (List.range' 0 w.services.length).filter (matchesAt w t) := by
    unfold matchingIdxs
    rw [List.range_eq_range']
  refine ⟨?_, ?_, ?_⟩
  · intro hno
    exact getServicesLoop_no_match _ _ _ hno
  · intro vs w' h
    refine ⟨?_, ?_⟩
    · rw [hbridge]
      exact getServicesLoop_ok_seq w.services.length 0 w vs w' (by omega) h
    · have hl := getServicesLoop_length w.services.length 0 w vs w' (by omega) h
      simpa using hl
  · intro e w' h
    obtain ⟨pre, j, rest, vs0, wmid, sj, cause, hsplit, hseq, hjw, hbf, he⟩ :=
      getServicesLoop_fatal_seq w.services.length 0 w e w' (by omega) h
    refine ⟨⟨pre, j, rest, vs0, wmid, sj, cause, ?_, hseq, hjw, hbf, he⟩, ?_⟩
    · rw [hbridge]
      exact hsplit
    · rw [he]
      rfl

/-- Witness for C8: a three-service container with two matches (the result
being exactly the two instances built from the matching descriptors at
indices 0 and 2, in that order), a type with no matches (empty result,
world untouched), and a failing matching build (buildFail panic naming the
failing descriptor). -/
theorem getServices_spec_witness :
    (Container.GetServices 1 (⟨false, "di", "Z", false⟩ : GoType) c8w = (.ok [], c8w)) ∧
    (BuildsSeq 1 (matchingIdxs c8w c8t) c8w [Value.obj 0, Value.obj 1]
       ⟨[c8s1, c8s2, c8s3], 2, [Event.ctorCall 0, Event.ctorCall 2]⟩ ∧
     ([Value.obj 0, Value.obj 1] : List Value).length
       = c8w.services.countP (fun s => decide (s.typ = c8t))) ∧
    (FailsAfter 1 c8t c8fw (GoErr.buildFail "di.M" (GoErr.userErr "x"))
       ⟨[c8sf], 1, [Event.ctorCall 0]⟩ ∧
     (GoErr.buildFail "di.M" (GoErr.userErr "x")).isBuildFail = true) :=
  ⟨(getServices_spec 1 (⟨false, "di", "Z", false⟩ : GoType) c8w).1 (by decide),
   (getServices_spec 1 c8t c8w).2.1 [Value.obj 0, Value.obj 1]
      ⟨[c8s1, c8s2, c8s3], 2, [Event.ctorCall 0, Event.ctorCall 2]⟩ rfl,
   (getServices_spec 1 c8t c8fw).2.2 (GoErr.buildFail "di.M" (GoErr.userErr "x"))
      ⟨[c8sf], 1, [Event.ctorCall 0]⟩ rfl⟩

end DI
